import Mathlib

/-!
# Balbi faucet front end (`faucet-frontend.js`)

A shallow embedding of the controller created by `initializeApp`: the string
helpers (`sanitizePk`, `deriveAddressFromPrivateKey`), the cooldown display
(`updateClaimButton`, the `startTimer` tick) and the event handlers
(connect, claim, logout, load), together with the properties the
specification states about them.

Conventions of the embedding.

* A JavaScript string is a `List Char` (`Str`); `null`/`undefined` where the
  source tolerates them is `Option.none`.
* A JavaScript number is `Option Int`: `none` is `NaN`, `some n` the integer
  `n`.  The numbers of the controller are millisecond counts (`Date.now()`, a
  stored timestamp, a difference of the two).  The divisions of
  `updateClaimButton` are IEEE double divisions followed by `Math.floor`
  (`mathFloorDiv`); sums and differences are exact, as they are on doubles for
  the timestamps the page itself writes (`Date.now()` stays below `2 ^ 53`).
* `computeAddress` and `localStorage.setItem` may throw; the state records
  whether the browser refuses writes.
* `localStorage` is an association list of string pairs.
* `alert` and `console.error` leave no trace in the state.
* An `await` splits a handler in two: the part before it runs when the event
  fires, the part after it when the pending request is answered; the state
  records the pending continuations.
-/

namespace Faucet

/-- A JavaScript string. -/
abbrev Str := List Char

/-! ## String helpers -/

/-- The characters matched by `\s` and stripped by `String.prototype.trim`:
ECMAScript *WhiteSpace* and *LineTerminator*. -/
def isWhiteSpace (c : Char) : Bool :=
  let n := c.toNat
  n == 0x09 || n == 0x0A || n == 0x0B || n == 0x0C || n == 0x0D || n == 0x20 ||
  n == 0xA0 || n == 0x1680 || (0x2000 ≤ n && n ≤ 0x200A) ||
  n == 0x2028 || n == 0x2029 || n == 0x202F || n == 0x205F || n == 0x3000 || n == 0xFEFF

/-- The method `String.prototype.trim`: strip white space from both ends. -/
def trim (s : Str) : Str :=
  ((s.dropWhile isWhiteSpace).reverse.dropWhile isWhiteSpace).reverse

/-- Scanner for `s.replace(/\s+/g, rep)`: every maximal run of white space is
replaced by one copy of `rep`.  `inRun` tells that the previous character
belonged to the run being consumed. -/
def replaceRunsFrom (rep : Str) : Bool → Str → Str
  | _, [] => []
  | inRun, c :: cs =>
    if isWhiteSpace c then
      if inRun then replaceRunsFrom rep true cs else rep ++ replaceRunsFrom rep true cs
    else c :: replaceRunsFrom rep false cs

/-- The call `s.replace(/\s+/g, rep)`. -/
def replaceWhiteSpaceRuns (rep : Str) (s : Str) : Str := replaceRunsFrom rep false s

/-- The helper `sanitizePk(pk)`: `(pk || '').trim().replace(/\s+/g, '')`. -/
def sanitizePk (pk : Option Str) : Str :=
  replaceWhiteSpaceRuns [] (trim (pk.getD []))

/-- The call `s.startsWith(p)`. -/
def startsWith (s p : Str) : Bool := p.isPrefixOf s

/-- The key under which the cooldown record of `address` is stored:
the template literal that starts with `lastClaimTime_` and ends with the address. -/
def cooldownKey (address : Str) : Str := "lastClaimTime_".toList ++ address

/-! ## `ethers.utils` -/

/-- A character of the class `[0-9A-Fa-f]`. -/
def isHexDigit (c : Char) : Bool :=
  let n := c.toNat
  (48 ≤ n && n ≤ 57) || (65 ≤ n && n ≤ 70) || (97 ≤ n && n ≤ 102)

/-- The test `value.match(/^0x[0-9A-Fa-f]*$/)` of ethers v5 `isHexString`. -/
def matchesHexPattern : Str → Bool
  | '0' :: 'x' :: rest => rest.all isHexDigit
  | _ => false

/-- Modelled from the spec: `ethers.utils.isHexString` comes from the ethers v5
bundle loaded at run time, which is not under `src/`.  The claim on
`deriveAddressFromPrivateKey` reads it as "`0x` followed by exactly `2 * length`
hexadecimal digits"; this is the body of the ethers v5 function: the pattern
test, then, when `length` is truthy, the test `value.length === 2 + 2 * length`. -/
def isHexString (value : Str) (length : Nat) : Bool :=
  if !matchesHexPattern value then false
  else if length != 0 && value.length != 2 + 2 * length then false
  else true

/-- The string `deriveAddressFromPrivateKey` hands to ethers:
`pk.startsWith('0x') ? pk : '0x' + pk`. -/
def formatKey (pk : Str) : Str :=
  if startsWith pk "0x".toList then pk else "0x".toList ++ pk

/-- The helper `deriveAddressFromPrivateKey(pk)`.  `computeAddress` stands for
`ethers.utils.computeAddress`, which returns an address or throws (ethers
refuses the key zero and every key from the group order on); a `throw` is
`Except.error` with the message of the `Error`. -/
def deriveAddressFromPrivateKey (computeAddress : Str → Except String Str) (pk : Str) :
    Except String Str :=
  let formatted := formatKey pk
  if !isHexString formatted 32 then
    Except.error "Invalid private key format"
  else
    computeAddress formatted

/-- A `computeAddress` that never throws, built from a total function. -/
def totalAddress (computeAddress : Str → Str) : Str → Except String Str :=
  fun formatted => Except.ok (computeAddress formatted)

/-- The shape of an address as ethers returns it: `0x` followed by 40
hexadecimal digits. -/
def IsEthAddress (address : Str) : Prop :=
  ∃ digits : Str, address = '0' :: 'x' :: digits ∧ digits.length = 40 ∧
    ∀ c ∈ digits, isHexDigit c = true

/-- What the claim on `deriveAddressFromPrivateKey` calls a well-formed key, in
the words of the specification: `0x` followed by exactly 64 hexadecimal digits
of either case. -/
def IsPrefixedKey (formatted : Str) : Prop :=
  ∃ digits : Str, formatted = '0' :: 'x' :: digits ∧ digits.length = 64 ∧
    ∀ c ∈ digits, isHexDigit c = true

/-! ## Numbers and their decimal form -/

/-- A decimal digit. -/
def isDecimalDigit (c : Char) : Bool := 48 ≤ c.toNat && c.toNat ≤ 57

/-- The value of a run of decimal digits, most significant first. -/
def digitsValue (ds : Str) : Nat := ds.foldl (fun acc c => acc * 10 + (c.toNat - 48)) 0

/-- The optional sign in front of the digits `parseInt` reads: whether it is a
minus, and what follows it. -/
def splitSign : Str → Bool × Str
  | '-' :: rest => (true, rest)
  | '+' :: rest => (false, rest)
  | body => (false, body)

/-- The call `parseInt(s, 10)`: skip leading white space, read an optional sign, then the
longest run of decimal digits; `NaN` (`none`) when that run is empty. -/
def parseInt (s : Str) : Option Int :=
  let signed := splitSign (s.dropWhile isWhiteSpace)
  let ds := signed.2.takeWhile isDecimalDigit
  if ds.isEmpty then none
  else if signed.1 then some (-(digitsValue ds : Int)) else some (digitsValue ds : Int)

/-- The decimal numeral of an integer: the string form `localStorage.setItem`
and template literals give an integer-valued number of magnitude below
`2 ^ 53`. -/
def intToString : Int → Str
  | Int.ofNat n => Nat.toDigits 10 n
  | Int.negSucc n => '-' :: Nat.toDigits 10 (n + 1)

/-- The string form of a number that may be `NaN`. -/
def numberToString : Option Int → Str
  | some n => intToString n
  | none => "NaN".toList

/-! ## `localStorage` -/

/-- The browser's persistent key-value storage. -/
abbrev Storage := List (Str × Str)

/-- The call `localStorage.getItem(key)`; `null` is `none`. -/
def getItem : Storage → Str → Option Str
  | [], _ => none
  | (k, v) :: rest, key => if k = key then some v else getItem rest key

/-- The call `localStorage.setItem(key, value)`: overwrite the entry of `key`, or add one. -/
def setItem : Storage → Str → Str → Storage
  | [], key, value => [(key, value)]
  | (k, v) :: rest, key, value =>
    if k = key then (k, value) :: rest else (k, v) :: setItem rest key value

/-- The call `localStorage.removeItem(key)`. -/
def removeItem : Storage → Str → Storage
  | [], _ => []
  | (k, v) :: rest, key =>
    if k = key then removeItem rest key else (k, v) :: removeItem rest key

/-! ## The page -/

/-- The two values the controller assigns to `style.display`:
`hidden` is `'none'`, `block` is `'block'`. -/
inductive Display where
  | hidden
  | block
  deriving DecidableEq

/-- The outcome of the `/balance` request inside `refreshBalances`. -/
inductive BalanceReply where
  /-- The branch `response.ok`; `balbi` and `usdc` are the renderings
  `parseFloat(data.balbi).toFixed(3)` and `parseFloat(data.usdc).toFixed(3)`. -/
  | ok (balbi usdc : Str)
  /-- The `else` branch and the `catch` block: both write `Error`. -/
  | error
  deriving DecidableEq

/-- The outcome of the `/claim` request inside the claim handler. -/
inductive ClaimReply where
  /-- The branch `response.ok` with a body other than `null`; `txHash` is the
  rendering of `data.txHash`. -/
  | ok (txHash : Str)
  /-- The branch `response.ok` with the body `null`: the success text is set,
  then `data.txHash` throws and the `catch` block runs. -/
  | okNull
  /-- The `else` branch with a body other than `null`.  `error` is `data.error`
  with the empty string for a missing or falsy one; `timeLeft` is
  `data.timeLeft || 0`. -/
  | notOk (error : Str) (timeLeft : Int)
  /-- The `catch` block with nothing done before it: `fetch` rejected, the body
  could not be read, or the response is not OK and its body is `null`
  (`data.error` throws). -/
  | failed
  deriving DecidableEq

/-- The mutable state `initializeApp` closes over: the DOM properties the
handlers write, the two interval handles, `localStorage`, the clock, and the
handlers suspended at an `await`. -/
structure State where
  /-- The property `loginSection.style.display`. -/
  loginSection : Display
  /-- The property `walletAddressDiv.style.display`. -/
  walletAddressDiv : Display
  /-- The property `walletInfoDiv.style.display`. -/
  walletInfoDiv : Display
  /-- The property `addressDisplay.textContent`. -/
  addressDisplay : Str
  /-- The property `privateKeyInput.value`. -/
  privateKeyInput : Str
  /-- The property `balbiBalanceSpan.textContent`. -/
  balbiBalanceSpan : Str
  /-- The property `usdcBalanceSpan.textContent`. -/
  usdcBalanceSpan : Str
  /-- The property `claimButton.disabled`. -/
  claimDisabled : Bool
  /-- The attribute `aria-disabled` of `claimButton`. -/
  claimAriaDisabled : Str
  /-- The property `claimButton.title`. -/
  claimTitle : Str
  /-- The property `claimButton.textContent`. -/
  claimLabel : Str
  /-- The property `claimTimerDiv.textContent`. -/
  claimTimerDiv : Str
  /-- The property `claimSuccessDiv.style.display`. -/
  claimSuccessDisplay : Display
  /-- The property `claimSuccessDiv.textContent`. -/
  claimSuccessDiv : Str
  /-- The property `claimHashDiv.style.display`. -/
  claimHashDisplay : Display
  /-- The property `claimHashDiv.textContent`. -/
  claimHashDiv : Str
  /-- The variable `updateInterval`; `none` is `null`. -/
  updateInterval : Option Nat
  /-- The `walletAddress` captured by the callback of `updateInterval`. -/
  updateAddress : Str
  /-- The variable `timerInterval`; `none` is `null`. -/
  timerInterval : Option Nat
  /-- The handles of the intervals that are running. -/
  activeIntervals : List Nat
  /-- The handle the next `setInterval` returns (handles are positive). -/
  nextIntervalId : Nat
  /-- The browser storage. -/
  localStorage : Storage
  /-- Whether `localStorage.setItem` throws `QuotaExceededError`: the quota of
  the origin is used up, or the browser refuses every write. -/
  storageFull : Bool
  /-- The value `Date.now()` returns, in milliseconds. -/
  now : Int
  /-- One `walletAddress` for each `connectWallet` suspended at
  `await refreshBalances(walletAddress)`. -/
  pendingConnects : List Str
  /-- One `walletAddress` for each claim handler waiting for its `/claim` reply. -/
  pendingClaims : List Str
  /-- One `walletAddress` for each claim handler suspended, in the `response.ok`
  branch, at `await refreshBalances(walletAddress)`. -/
  pendingClaimRefreshes : List Str
  /-- One address for each `refreshBalances` started by `updateInterval` and not
  yet answered. -/
  pendingRefreshes : List Str
  deriving DecidableEq

/-- The cooldown: `4 * 60 * 60 * 1000` milliseconds. -/
def cooldownMs : Int := 4 * 60 * 60 * 1000

/-- Double the numerator until `num / den` reaches `bound`; the result is the
numerator and the number of doublings. -/
def scaleUp (bound : Nat) : Nat → Nat → Nat → Nat → Nat × Nat
  | 0, num, _, shift => (num, shift)
  | fuel + 1, num, den, shift =>
    if num < bound * den then scaleUp bound fuel (2 * num) den (shift + 1) else (num, shift)

/-- Double the denominator until `num / den` falls below `bound`; the result is
the denominator and the number of doublings. -/
def scaleDown (bound : Nat) : Nat → Nat → Nat → Nat → Nat × Nat
  | 0, _, den, shift => (den, shift)
  | fuel + 1, num, den, shift =>
    if bound * den ≤ num then scaleDown bound fuel num (2 * den) (shift + 1) else (den, shift)

/-- Round `num / den` to the nearest integer, ties to the even one: the rounding
of an IEEE significand. -/
def roundHalfEven (num den : Nat) : Nat :=
  if den < 2 * (num % den) ∨ (2 * (num % den) = den ∧ (num / den) % 2 = 1) then num / den + 1
  else num / den

/-- The value `Math.floor(a / b)` for doubles `a ≥ 0` and `b > 0` that hold
integers.  The double `a / b` is `m * 2 ^ e` with `m` the quotient scaled into
`[2 ^ 52, 2 ^ 53]` and rounded to nearest, ties to even: for a quotient below
`2 ^ 53` the exponent is `-shift` and the floor divides `m` by `2 ^ shift`; for
a larger quotient the exponent is `shift` and the double is an integer. -/
def floorDoubleDiv (a b : Nat) : Nat :=
  if a = 0 then 0
  else if a < 2 ^ 53 * b then
    let scaled := scaleUp (2 ^ 52) (53 + b) a b 0
    roundHalfEven scaled.1 b / 2 ^ scaled.2
  else
    let scaled := scaleDown (2 ^ 53) a a b 0
    roundHalfEven a scaled.1 * 2 ^ scaled.2

/-- The value `Math.ceil(a / b)` for the same doubles; `Math.floor` of a
negative quotient is minus this. -/
def ceilDoubleDiv (a b : Nat) : Nat :=
  if a = 0 then 0
  else if a < 2 ^ 53 * b then
    let scaled := scaleUp (2 ^ 52) (53 + b) a b 0
    (roundHalfEven scaled.1 b + (2 ^ scaled.2 - 1)) / 2 ^ scaled.2
  else
    let scaled := scaleDown (2 ^ 53) a a b 0
    roundHalfEven a scaled.1 * 2 ^ scaled.2

/-- The expression `Math.floor(a / b)` of `updateClaimButton`: an IEEE double
division, then the floor; `a` is a double that holds an integer, `b` one of
the positive constants of the source. -/
def mathFloorDiv (a : Int) (b : Nat) : Int :=
  match a with
  | Int.ofNat n => (floorDoubleDiv n b : Int)
  | Int.negSucc n => -(ceilDoubleDiv (n + 1) b : Int)

/-- The hours shown by `updateClaimButton`:
`Math.floor(timeLeft / (1000 * 60 * 60))`. -/
def countdownHours (timeLeft : Int) : Int := mathFloorDiv timeLeft (1000 * 60 * 60)

/-- The minutes shown by `updateClaimButton`:
`Math.floor((timeLeft % (1000 * 60 * 60)) / (1000 * 60))`; the remainder of
JavaScript is exact and takes the sign of the dividend (`Int.tmod`). -/
def countdownMinutes (timeLeft : Int) : Int :=
  mathFloorDiv (timeLeft.tmod (1000 * 60 * 60)) (1000 * 60)

/-- The seconds shown by `updateClaimButton`:
`Math.floor((timeLeft % (1000 * 60)) / 1000)`. -/
def countdownSeconds (timeLeft : Int) : Int := mathFloorDiv (timeLeft.tmod (1000 * 60)) 1000

/-- The text of the `else` branch of `updateClaimButton`. -/
def countdownText (timeLeft : Option Int) : Str :=
  "Next claim in: ".toList ++ numberToString (timeLeft.map countdownHours) ++ "h ".toList
    ++ numberToString (timeLeft.map countdownMinutes) ++ "m ".toList
    ++ numberToString (timeLeft.map countdownSeconds) ++ "s".toList

/-- The comparison `timeLeft <= 0`, false on `NaN`. -/
def leZero : Option Int → Bool
  | some t => decide (t ≤ 0)
  | none => false

/-- The function `updateClaimButton(timeLeft)`. -/
def updateClaimButton (timeLeft : Option Int) (s : State) : State :=
  if leZero timeLeft then
    { s with
      claimDisabled := false
      claimTimerDiv := "Ready to claim!".toList
      claimAriaDisabled := "false".toList
      claimTitle := "Ready to claim".toList }
  else
    { s with
      claimDisabled := true
      claimTimerDiv := countdownText timeLeft
      claimAriaDisabled := "true".toList
      claimTitle := "Wait until the next claim window".toList }

/-- The expression `parseInt(storedTime, 10) + (4 * 60 * 60 * 1000) - now`. -/
def timeLeftOf (storedTime : Str) (now : Int) : Option Int :=
  (parseInt storedTime).map (fun t => t + cooldownMs - now)

/-- The callback `startTimer` hands to `setInterval`. -/
def timerTick (s : State) : State :=
  let address := trim s.addressDisplay
  if address.isEmpty then
    { s with claimDisabled := true, claimTimerDiv := [] }
  else
    match getItem s.localStorage (cooldownKey address) with
    | some storedTime =>
      if storedTime.isEmpty then updateClaimButton (some 0) s
      else updateClaimButton (timeLeftOf storedTime s.now) s
    | none => updateClaimButton (some 0) s

/-- The call `clearInterval(handle)`. -/
def clearInterval (handle : Option Nat) (active : List Nat) : List Nat :=
  match handle with
  | some h => active.filter (fun i => i ≠ h)
  | none => active

/-- The function `startTimer()`: clear the old interval and start a new one. -/
def startTimer (s : State) : State :=
  { s with
    timerInterval := some s.nextIntervalId
    activeIntervals := s.nextIntervalId :: clearInterval s.timerInterval s.activeIntervals
    nextIntervalId := s.nextIntervalId + 1 }

/-- The function `refreshBalances(address)` up to its `await fetch(...)`. -/
def refreshBalancesStart (address : Str) (s : State) : State :=
  if address.isEmpty then s
  else { s with balbiBalanceSpan := "Loading...".toList, usdcBalanceSpan := "Loading...".toList }

/-- The function `refreshBalances(address)` from the reply on. -/
def refreshBalancesDone (address : Str) (reply : BalanceReply) (s : State) : State :=
  if address.isEmpty then s
  else
    match reply with
    | BalanceReply.ok balbi usdc =>
      { s with balbiBalanceSpan := balbi ++ " BALBI".toList, usdcBalanceSpan := usdc ++ " USDC".toList }
    | BalanceReply.error =>
      { s with balbiBalanceSpan := "Error".toList, usdcBalanceSpan := "Error".toList }

/-! ## The handlers -/

/-- The function `connectWallet(privateKey)` up to its `await refreshBalances(walletAddress)`.
A throw of `deriveAddressFromPrivateKey`, its own or that of `computeAddress`,
lands in the `catch` block, which only reports. -/
def connectWallet (computeAddress : Str → Except String Str) (privateKey : Option Str)
    (s : State) : State :=
  let pk := sanitizePk privateKey
  match deriveAddressFromPrivateKey computeAddress pk with
  | Except.error _ => s
  | Except.ok walletAddress =>
    let shown : State :=
      { s with
        loginSection := Display.hidden
        walletAddressDiv := Display.block
        walletInfoDiv := Display.block
        addressDisplay := walletAddress }
    let loading := refreshBalancesStart walletAddress shown
    { loading with pendingConnects := loading.pendingConnects ++ [walletAddress] }

/-- The rest of `connectWallet`, run when the balance request of the `i`-th
suspended call is answered: finish `refreshBalances`, restart the balance
interval, `startTimer()`. -/
def connectResume (i : Nat) (reply : BalanceReply) (s : State) : State :=
  match s.pendingConnects[i]? with
  | none => s
  | some walletAddress =>
    let resumed : State := { s with pendingConnects := s.pendingConnects.eraseIdx i }
    let refreshed := refreshBalancesDone walletAddress reply resumed
    let restarted : State :=
      { refreshed with
        updateInterval := some refreshed.nextIntervalId
        updateAddress := walletAddress
        activeIntervals :=
          refreshed.nextIntervalId :: clearInterval refreshed.updateInterval refreshed.activeIntervals
        nextIntervalId := refreshed.nextIntervalId + 1 }
    startTimer restarted

/-- One whole call of `connectWallet` with nothing else running in between:
the part before the `await`, then the part after it with `reply` as the answer
of the balance request. -/
def connectWalletRun (computeAddress : Str → Except String Str) (privateKey : Option Str)
    (reply : BalanceReply) (s : State) : State :=
  match deriveAddressFromPrivateKey computeAddress (sanitizePk privateKey) with
  | Except.error _ => s
  | Except.ok _ =>
    let started := connectWallet computeAddress privateKey s
    connectResume (started.pendingConnects.length - 1) reply started

/-- The click handler of `connectButton`. -/
def connectClick (computeAddress : Str → Except String Str) (s : State) : State :=
  let privateKey := sanitizePk (some s.privateKeyInput)
  if privateKey.isEmpty then s
  else connectWallet computeAddress (some privateKey) s

/-- The `finally` block of the claim handler. -/
def claimFinally (walletAddress : Str) (s : State) : State :=
  let relabelled : State := { s with claimLabel := "Claim Balbi".toList }
  match getItem relabelled.localStorage (cooldownKey walletAddress) with
  | some storedTime =>
    if storedTime.isEmpty then relabelled
    else updateClaimButton (timeLeftOf storedTime relabelled.now) relabelled
  | none => relabelled

/-- The click handler of `claimButton` up to its `await fetch(...)`.  A disabled
button dispatches no click. -/
def claimClick (s : State) : State :=
  if s.claimDisabled then s
  else
    let walletAddress := trim s.addressDisplay
    if walletAddress.isEmpty then s
    else
      { s with
        claimDisabled := true
        claimLabel := "Claiming...".toList
        claimSuccessDisplay := Display.hidden
        claimHashDisplay := Display.hidden
        pendingClaims := s.pendingClaims ++ [walletAddress] }

/-- The claim handler from the reply of its `/claim` request on, for the `i`-th
pending request.  In the `response.ok` branch it runs up to
`await refreshBalances(walletAddress)`, unless `data.txHash` or
`localStorage.setItem` throws: then the `catch` and `finally` blocks run at
once.  In the other branches it runs to the end. -/
def claimResponse (i : Nat) (reply : ClaimReply) (s : State) : State :=
  match s.pendingClaims[i]? with
  | none => s
  | some walletAddress =>
    let resumed : State := { s with pendingClaims := s.pendingClaims.eraseIdx i }
    match reply with
    | ClaimReply.ok txHash =>
      let announced : State :=
        { resumed with
          claimSuccessDiv := "Tokens sent successfully!".toList
          claimSuccessDisplay := Display.block
          claimHashDiv := "Tx Hash: ".toList ++ txHash
          claimHashDisplay := Display.block }
      if announced.storageFull then claimFinally walletAddress announced
      else
        let saved : State :=
          { announced with
            localStorage :=
              setItem announced.localStorage (cooldownKey walletAddress)
                (intToString announced.now) }
        let cooled := updateClaimButton (some cooldownMs) saved
        let loading := refreshBalancesStart walletAddress cooled
        { loading with pendingClaimRefreshes := loading.pendingClaimRefreshes ++ [walletAddress] }
    | ClaimReply.okNull =>
      let announced : State :=
        { resumed with
          claimSuccessDiv := "Tokens sent successfully!".toList
          claimSuccessDisplay := Display.block }
      claimFinally walletAddress announced
    | ClaimReply.notOk error timeLeft =>
      let reported : State :=
        { resumed with
          claimSuccessDiv :=
            "Error: ".toList ++ (if error.isEmpty then "Unknown error".toList else error)
          claimSuccessDisplay := Display.block }
      claimFinally walletAddress (updateClaimButton (some timeLeft) reported)
    | ClaimReply.failed => claimFinally walletAddress resumed

/-- The end of the `response.ok` branch of the claim handler: the balance
request is answered, then the `finally` block runs. -/
def claimRefreshDone (i : Nat) (reply : BalanceReply) (s : State) : State :=
  match s.pendingClaimRefreshes[i]? with
  | none => s
  | some walletAddress =>
    let resumed : State :=
      { s with pendingClaimRefreshes := s.pendingClaimRefreshes.eraseIdx i }
    claimFinally walletAddress (refreshBalancesDone walletAddress reply resumed)

/-- The click handler of `logoutButton`. -/
def logout (s : State) : State :=
  { s with
    activeIntervals :=
      clearInterval s.timerInterval (clearInterval s.updateInterval s.activeIntervals)
    walletAddressDiv := Display.hidden
    walletInfoDiv := Display.hidden
    loginSection := Display.block
    privateKeyInput := []
    addressDisplay := []
    claimTimerDiv := []
    claimDisabled := true }

/-- The handler `window.onload`. -/
def onload (s : State) : State :=
  { s with
    localStorage := removeItem s.localStorage "balbiPrivateKey".toList
    privateKeyInput := []
    claimDisabled := true
    claimTimerDiv := [] }

/-- The click handler of the cookie banner's accept button, as far as the
state above is concerned; a throw of `setItem` ends it. -/
def acceptCookies (s : State) : State :=
  if s.storageFull then s
  else { s with localStorage := setItem s.localStorage "cookieConsent".toList "true".toList }

/-- Whether the interval behind `handle` is running. -/
def isRunning (handle : Option Nat) (s : State) : Bool :=
  match handle with
  | some h => s.activeIntervals.contains h
  | none => false

/-- Everything that can happen to the page. -/
inductive Op where
  /-- The event `load` of the window. -/
  | load
  /-- A click on the accept button of the cookie banner. -/
  | acceptCookies
  /-- The user replaces the content of the private-key field. -/
  | typeKey (value : Str)
  /-- A click on `connectButton`. -/
  | connectClick
  /-- The first balance request of the `i`-th suspended `connectWallet` is answered. -/
  | connectResume (i : Nat) (reply : BalanceReply)
  /-- The interval `timerInterval` fires. -/
  | timerTick
  /-- The interval `updateInterval` fires. -/
  | refreshTick
  /-- The `i`-th balance request started by `updateInterval` is answered. -/
  | refreshDone (i : Nat) (reply : BalanceReply)
  /-- A click on `claimButton`. -/
  | claimClick
  /-- The `i`-th pending `/claim` request is answered. -/
  | claimResponse (i : Nat) (reply : ClaimReply)
  /-- The balance request of the `i`-th successful claim is answered. -/
  | claimRefreshDone (i : Nat) (reply : BalanceReply)
  /-- A click on `logoutButton`. -/
  | logout
  /-- The clock moves forward by `ms` milliseconds. -/
  | advance (ms : Nat)
  /-- The storage quota of the origin runs out (`true`) or is freed (`false`). -/
  | storageQuota (full : Bool)
  deriving DecidableEq

/-- One step of the page.  An event that cannot fire in `s` (an interval that
is not running, an answer to a request that is not pending) leaves `s` as it is. -/
def step (computeAddress : Str → Except String Str) (op : Op) (s : State) : State :=
  match op with
  | Op.load => onload s
  | Op.acceptCookies => acceptCookies s
  | Op.typeKey value => { s with privateKeyInput := value }
  | Op.connectClick => connectClick computeAddress s
  | Op.connectResume i reply => connectResume i reply s
  | Op.timerTick => if isRunning s.timerInterval s then timerTick s else s
  | Op.refreshTick =>
    if isRunning s.updateInterval s then
      let loading := refreshBalancesStart s.updateAddress s
      { loading with pendingRefreshes := loading.pendingRefreshes ++ [s.updateAddress] }
    else s
  | Op.refreshDone i reply =>
    match s.pendingRefreshes[i]? with
    | none => s
    | some address =>
      refreshBalancesDone address reply
        { s with pendingRefreshes := s.pendingRefreshes.eraseIdx i }
  | Op.claimClick => claimClick s
  | Op.claimResponse i reply => claimResponse i reply s
  | Op.claimRefreshDone i reply => claimRefreshDone i reply s
  | Op.logout => logout s
  | Op.advance ms => { s with now := s.now + (ms : Int) }
  | Op.storageQuota full => { s with storageFull := full }

/-- The state after a sequence of steps. -/
def run (computeAddress : Str → Except String Str) (ops : List Op) (s : State) : State :=
  ops.foldl (fun acc op => step computeAddress op acc) s

/-- The page once `initializeApp` and `window.onload` have run: logged out,
the claim button disabled, the timer of the closing `startTimer()` running. -/
def initialState (storage : Storage) (now : Int) : State :=
  { loginSection := Display.block
    walletAddressDiv := Display.hidden
    walletInfoDiv := Display.hidden
    addressDisplay := []
    privateKeyInput := []
    balbiBalanceSpan := []
    usdcBalanceSpan := []
    claimDisabled := true
    claimAriaDisabled := []
    claimTitle := []
    claimLabel := "Claim Balbi".toList
    claimTimerDiv := []
    claimSuccessDisplay := Display.hidden
    claimSuccessDiv := []
    claimHashDisplay := Display.hidden
    claimHashDiv := []
    updateInterval := none
    updateAddress := []
    timerInterval := some 1
    activeIntervals := [1]
    nextIntervalId := 2
    localStorage := removeItem storage "balbiPrivateKey".toList
    storageFull := false
    now := now
    pendingConnects := []
    pendingClaims := []
    pendingClaimRefreshes := []
    pendingRefreshes := [] }

/-! ## A concrete session -/

/-- The private key `1`, as 64 hexadecimal digits. -/
def keyOne : Str := "0000000000000000000000000000000000000000000000000000000000000001".toList

/-- The private key `2`, as 64 hexadecimal digits. -/
def keyTwo : Str := "0000000000000000000000000000000000000000000000000000000000000002".toList

/-- The address ethers derives from the private key `1`. -/
def addressOne : Str := "0x7E5F4552091A69125d5DfCb7b8C2659029395Bdf".toList

/-- The address ethers derives from the private key `2`. -/
def addressTwo : Str := "0x2B5AD5c4795c026514f8317c7a215E218DcCD6cF".toList

/-- The private key `0`, as 64 hexadecimal digits: well formed, refused by ethers. -/
def keyZero : Str := "0000000000000000000000000000000000000000000000000000000000000000".toList

/-- A stand-in for `ethers.utils.computeAddress` in concrete sessions: it agrees
with ethers on the private keys `1`, `2` and `0`, the only ones those sessions
use, and throws on every other input. -/
def demoComputeAddress (formatted : Str) : Except String Str :=
  if formatted = '0' :: 'x' :: keyOne then Except.ok addressOne
  else if formatted = '0' :: 'x' :: keyTwo then Except.ok addressTwo
  else Except.error "invalid private key"

/-- A total stand-in for `ethers.utils.computeAddress`, for the statements that
take the function as total: the address of key `1` for that key, the address
of key `2` for every other input. -/
def demoTotalAddress (formatted : Str) : Str :=
  if formatted = '0' :: 'x' :: keyOne then addressOne else addressTwo

/-- A session in which the wallet of key `1` logs in and claims successfully
at time 1000. -/
def claimSession : List Op :=
  [ Op.typeKey keyOne, Op.connectClick,
    Op.connectResume 0 (BalanceReply.ok "0.000".toList "0.000".toList),
    Op.timerTick, Op.claimClick, Op.claimResponse 0 (ClaimReply.ok "0xabc".toList),
    Op.claimRefreshDone 0 BalanceReply.error ]

/-- A session in which a claim is answered after its wallet has logged out:
the claim of `claimSession`, then key `2` logs in and clicks claim, logs out
while the request is pending, key `1` logs in again two seconds into its
cooldown, and only then the request of key `2` is refused by the backend. -/
def staleReplySession : List Op :=
  claimSession ++
  [ Op.logout,
    Op.typeKey keyTwo, Op.connectClick, Op.connectResume 0 BalanceReply.error,
    Op.advance 1000, Op.timerTick, Op.claimClick,
    Op.logout,
    Op.typeKey keyOne, Op.connectClick, Op.connectResume 0 BalanceReply.error,
    Op.advance 1000, Op.timerTick,
    Op.claimResponse 0 (ClaimReply.notOk "Faucet empty".toList 0) ]

/-- A session in which the wallet of key `2` logs out while its claim request
is pending and the backend refuses the request afterwards. -/
def logoutSession : List Op :=
  [ Op.typeKey keyTwo, Op.connectClick, Op.connectResume 0 BalanceReply.error,
    Op.timerTick, Op.claimClick, Op.logout,
    Op.claimResponse 0 (ClaimReply.notOk [] 0) ]

/-- The state at the end of `claimSession`: the wallet of key `1` is connected
and its cooldown record holds the time 1000. -/
def cooldownState : State := run demoComputeAddress claimSession (initialState [] 1000)

/-- A state in which the claim request of the wallet of key `2` is pending. -/
def pendingState : State := run demoComputeAddress (logoutSession.take 5) (initialState [] 1000)

/-- The wallet addresses the page holds have the shape ethers gives them: the
text of `addressDisplay` is empty or an address, and every pending claim
request was made for an address. -/
def WalletsWellFormed (s : State) : Prop :=
  (s.addressDisplay = [] ∨ IsEthAddress s.addressDisplay)
  ∧ ∀ w ∈ s.pendingClaims, IsEthAddress w

/-- The storage invariant behind the persistence claim: no value contains
`address`, and an entry whose key contains it is the cooldown record of
`address` itself, with a decimal timestamp as value. -/
def OnlyOwnCooldownKey (address : Str) (st : Storage) : Prop :=
  ∀ e ∈ st, ¬ address <:+: e.2 ∧
    (address <:+: e.1 → e.1 = cooldownKey address ∧ ∃ n : Int, e.2 = intToString n)

/-! # Properties -/

/-! ## White space -/

theorem replaceRunsFrom_nil (b : Bool) (s : Str) :
    replaceRunsFrom [] b s = s.filter (fun c => !isWhiteSpace c) := by
  induction s generalizing b with
  | nil => rfl
  | cons c cs ih =>
    cases h : isWhiteSpace c <;> simp [replaceRunsFrom, h, ih]

theorem filter_dropWhile_ws (s : Str) :
    (s.dropWhile isWhiteSpace).filter (fun c => !isWhiteSpace c)
      = s.filter (fun c => !isWhiteSpace c) := by
  induction s with
  | nil => rfl
  | cons c cs ih =>
    cases h : isWhiteSpace c <;> simp [List.dropWhile, h, ih]

theorem filter_trim (s : Str) :
    (trim s).filter (fun c => !isWhiteSpace c) = s.filter (fun c => !isWhiteSpace c) := by
  unfold trim
  rw [List.filter_reverse, filter_dropWhile_ws, ← List.filter_reverse, List.reverse_reverse,
    filter_dropWhile_ws]

theorem sanitizePk_eq_filter (q : Option Str) :
    sanitizePk q = (q.getD []).filter (fun c => !isWhiteSpace c) := by
  simp only [sanitizePk, replaceWhiteSpaceRuns, replaceRunsFrom_nil, filter_trim]

theorem sanitizePk_idem (v : Str) :
    sanitizePk (some (sanitizePk (some v))) = sanitizePk (some v) := by
  rw [sanitizePk_eq_filter (some _), sanitizePk_eq_filter (some v)]
  simp [List.filter_filter]

theorem matchesHexPattern_iff (f : Str) :
    matchesHexPattern f = true ↔ ∃ rest, f = '0' :: 'x' :: rest ∧ ∀ c ∈ rest, isHexDigit c = true := by
  unfold matchesHexPattern
  split
  · rename_i rest
    constructor
    · intro h
      exact ⟨rest, rfl, List.all_eq_true.1 h⟩
    · rintro ⟨r, hr, hall⟩
      simp only [List.cons.injEq, true_and] at hr
      subst hr
      exact List.all_eq_true.2 hall
  · rename_i hne
    constructor
    · intro h; cases h
    · rintro ⟨r, hr, -⟩
      exact absurd hr (hne r)

theorem isHexString_32_iff (f : Str) : isHexString f 32 = true ↔ IsPrefixedKey f := by
  unfold isHexString IsPrefixedKey
  constructor
  · intro h
    by_cases hm : matchesHexPattern f = true
    · obtain ⟨rest, rfl, hall⟩ := (matchesHexPattern_iff f).1 hm
      refine ⟨rest, rfl, ?_, hall⟩
      by_contra hl
      have hne : ('0' :: 'x' :: rest).length ≠ 2 + 2 * 32 := by
        simp only [List.length_cons]; omega
      simp [hm, hne] at h
      exact hl h
    · simp [hm] at h
  · rintro ⟨ds, rfl, hlen, hall⟩
    have hm : matchesHexPattern ('0' :: 'x' :: ds) = true :=
      (matchesHexPattern_iff _).2 ⟨ds, rfl, hall⟩
    simp [hm, hlen]

theorem formatKey_of_digits (ds : Str) (hall : ∀ c ∈ ds, isHexDigit c = true) (hne : ds ≠ []) :
    formatKey ds = '0' :: 'x' :: ds ∧ formatKey ('0' :: 'x' :: ds) = '0' :: 'x' :: ds := by
  constructor
  · unfold formatKey startsWith
    have : ("0x".toList).isPrefixOf ds = false := by
      match ds, hall with
      | [], _ => exact absurd rfl hne
      | [c], _ => 
        show List.isPrefixOf ['0', 'x'] [c] = false
        simp [List.isPrefixOf]
      | c :: d :: r, hall =>
        have hd : isHexDigit d = true := hall d (by simp)
        have : d ≠ 'x' := by
          rintro rfl
          revert hd; decide
        show List.isPrefixOf ['0', 'x'] (c :: d :: r) = false
        simp [List.isPrefixOf, this]
        intro _ h; exact absurd h.symm this
    simp only [this, Bool.false_eq_true, if_false]
    rfl
  · unfold formatKey startsWith
    have : ("0x".toList).isPrefixOf ('0' :: 'x' :: ds) = true := by
      show List.isPrefixOf ['0', 'x'] ('0' :: 'x' :: ds) = true
      simp [List.isPrefixOf]
    simp only [this, if_true]

theorem derive_of_key (ca : Str → Except String Str) (q : Str) (hq : IsPrefixedKey (formatKey q)) :
    deriveAddressFromPrivateKey ca q = ca (formatKey q) := by
  have := (isHexString_32_iff _).2 hq
  simp [deriveAddressFromPrivateKey, this]

theorem derive_of_not_key (ca : Str → Except String Str) (q : Str)
    (hq : ¬ IsPrefixedKey (formatKey q)) :
    deriveAddressFromPrivateKey ca q = Except.error "Invalid private key format" := by
  have : isHexString (formatKey q) 32 = false := by
    cases h : isHexString (formatKey q) 32
    · rfl
    · exact absurd ((isHexString_32_iff _).1 h) hq
  simp [deriveAddressFromPrivateKey, this]

/-- C6: `deriveAddressFromPrivateKey` rejects exactly the malformed keys.  With
`computeAddress` total, the call throws, with the message
`Invalid private key format` and no other, iff the key with `0x` put in front
when it does not start with `0x` is not `0x` followed by exactly 64 hexadecimal
digits; otherwise it returns `computeAddress` of that string.  A key of 64
hexadecimal digits is accepted with and without the `0x` in front, and both
forms give the same address. -/
theorem deriveAddressFromPrivateKey_rejects_exactly (computeAddress : Str → Str) (pk : Str) :
    (deriveAddressFromPrivateKey (totalAddress computeAddress) pk
          = Except.error "Invalid private key format"
        ↔ ¬ IsPrefixedKey (formatKey pk))
    ∧ (IsPrefixedKey (formatKey pk) →
        deriveAddressFromPrivateKey (totalAddress computeAddress) pk
          = Except.ok (computeAddress (formatKey pk)))
    ∧ (∀ e, deriveAddressFromPrivateKey (totalAddress computeAddress) pk = Except.error e →
        e = "Invalid private key format")
    ∧ (∀ digits : Str, digits.length = 64 → (∀ c ∈ digits, isHexDigit c = true) →
        deriveAddressFromPrivateKey (totalAddress computeAddress) digits
          = Except.ok (computeAddress ('0' :: 'x' :: digits))
        ∧ deriveAddressFromPrivateKey (totalAddress computeAddress) ('0' :: 'x' :: digits)
          = Except.ok (computeAddress ('0' :: 'x' :: digits))) := by
  have ok_of : ∀ q : Str, IsPrefixedKey (formatKey q) →
      deriveAddressFromPrivateKey (totalAddress computeAddress) q
        = Except.ok (computeAddress (formatKey q)) := by
    intro q hq
    rw [derive_of_key _ q hq]
    rfl
  have err_of := derive_of_not_key (totalAddress computeAddress)
  refine ⟨⟨?_, err_of pk⟩, ok_of pk, ?_, ?_⟩
  · intro h hk
    rw [ok_of pk hk] at h
    cases h
  · intro e he
    by_cases hk : IsPrefixedKey (formatKey pk)
    · rw [ok_of pk hk] at he; cases he
    · rw [err_of pk hk] at he
      cases he; rfl
  · intro ds hlen hall
    have hne : ds ≠ [] := by
      rintro rfl; simp at hlen
    obtain ⟨h1, h2⟩ := formatKey_of_digits ds hall hne
    have hk : IsPrefixedKey ('0' :: 'x' :: ds) := ⟨ds, rfl, hlen, hall⟩
    constructor
    · have := ok_of ds (by rw [h1]; exact hk)
      rw [h1] at this; exact this
    · have := ok_of ('0' :: 'x' :: ds) (by rw [h2]; exact hk)
      rw [h2] at this; exact this

theorem deriveAddressFromPrivateKey_rejects_exactly_witness :
    keyOne.length = 64 ∧ (∀ c ∈ keyOne, isHexDigit c = true)
    ∧ deriveAddressFromPrivateKey (totalAddress demoTotalAddress) keyOne = Except.ok addressOne
    ∧ deriveAddressFromPrivateKey (totalAddress demoTotalAddress) ('0' :: 'x' :: keyOne)
        = Except.ok addressOne
    ∧ deriveAddressFromPrivateKey (totalAddress demoTotalAddress) "0X01".toList
        = Except.error "Invalid private key format" :=
  ⟨by decide, by decide,
    ((deriveAddressFromPrivateKey_rejects_exactly demoTotalAddress keyOne).2.2.2 keyOne
      (by decide) (by decide)).1,
    ((deriveAddressFromPrivateKey_rejects_exactly demoTotalAddress keyOne).2.2.2 keyOne
      (by decide) (by decide)).2,
    rfl⟩

theorem digitChar_toNat (d : Nat) (h : d < 10) : (Nat.digitChar d).toNat = 48 + d := by
  interval_cases d <;> rfl

theorem foldl_toDigitsCore (fuel : Nat) : ∀ (n : Nat) (ds : Str), n < fuel →
    (Nat.toDigitsCore 10 fuel n ds).foldl (fun acc c => acc * 10 + (c.toNat - 48)) 0
      = ds.foldl (fun acc c => acc * 10 + (c.toNat - 48)) n := by
  induction fuel with
  | zero => intro n ds h; omega
  | succ fuel ih =>
    intro n ds h
    have hd : (Nat.digitChar (n % 10)).toNat - 48 = n % 10 := by
      rw [digitChar_toNat _ (Nat.mod_lt _ (by norm_num))]; omega
    simp only [Nat.toDigitsCore]
    split
    · rename_i h0
      simp only [List.foldl_cons, hd]
      congr 1
      omega
    · rename_i h0
      rw [ih (n / 10) _ (by omega)]
      simp only [List.foldl_cons, hd]
      congr 1
      omega

theorem all_digits_toDigitsCore (fuel : Nat) : ∀ (n : Nat) (ds : Str),
    (∀ c ∈ ds, isDecimalDigit c = true) →
    ∀ c ∈ Nat.toDigitsCore 10 fuel n ds, isDecimalDigit c = true := by
  induction fuel with
  | zero => intro n ds h; simpa [Nat.toDigitsCore] using h
  | succ fuel ih =>
    intro n ds h
    have hd : isDecimalDigit (Nat.digitChar (n % 10)) = true := by
      have := digitChar_toNat (n % 10) (Nat.mod_lt _ (by norm_num))
      simp only [isDecimalDigit, this]
      simp
      omega
    have hcons : ∀ c ∈ Nat.digitChar (n % 10) :: ds, isDecimalDigit c = true := by
      intro c hc
      rcases List.mem_cons.1 hc with rfl | hc
      · exact hd
      · exact h c hc
    simp only [Nat.toDigitsCore]
    split
    · exact hcons
    · exact ih _ _ hcons

theorem toDigitsCore_ne_nil (fuel : Nat) : ∀ (n : Nat) (ds : Str), 0 < fuel →
    Nat.toDigitsCore 10 fuel n ds ≠ [] := by
  induction fuel with
  | zero => intro n ds h; omega
  | succ fuel ih =>
    intro n ds _
    simp only [Nat.toDigitsCore]
    split
    · simp
    · cases fuel with
      | zero => simp [Nat.toDigitsCore]
      | succ f => exact ih _ _ (by omega)

theorem isDecimalDigit_not_ws (c : Char) (h : isDecimalDigit c = true) :
    isWhiteSpace c = false ∧ c ≠ '-' ∧ c ≠ '+' := by
  simp only [isDecimalDigit, Bool.and_eq_true, decide_eq_true_eq] at h
  refine ⟨?_, ?_, ?_⟩
  · simp only [isWhiteSpace, Bool.or_eq_false_iff, Bool.and_eq_false_imp, beq_eq_false_iff_ne,
      decide_eq_true_eq, decide_eq_false_iff_not, ne_eq]
    omega
  · rintro rfl; revert h; decide
  · rintro rfl; revert h; decide

theorem parse_digits (ds : Str) (hne : ds ≠ []) (hall : ∀ c ∈ ds, isDecimalDigit c = true) :
    parseInt ds = some (digitsValue ds : Int) ∧ parseInt ('-' :: ds) = some (-(digitsValue ds : Int)) := by
  obtain ⟨c, r, rfl⟩ := List.exists_cons_of_ne_nil hne
  have hc := hall c (by simp)
  obtain ⟨hws, hm, hp⟩ := isDecimalDigit_not_ws c hc
  have htake : (c :: r).takeWhile isDecimalDigit = c :: r :=
    List.takeWhile_eq_self_iff.2 hall
  have hsign : splitSign (c :: r) = (false, c :: r) := by
    unfold splitSign
    split
    · rename_i heq; simp only [List.cons.injEq] at heq; exact absurd heq.1 hm
    · rename_i heq; simp only [List.cons.injEq] at heq; exact absurd heq.1 hp
    · rfl
  constructor
  · unfold parseInt
    simp only [List.dropWhile, hws, hsign, htake]
    simp
  · unfold parseInt
    have : isWhiteSpace '-' = false := by decide
    simp only [List.dropWhile, this, splitSign, htake]
    simp

theorem parseInt_intToString (t : Int) : parseInt (intToString t) = some t := by
  cases t with
  | ofNat n =>
    have hall : ∀ c ∈ Nat.toDigits 10 n, isDecimalDigit c = true :=
      all_digits_toDigitsCore _ _ _ (by simp)
    have hne : Nat.toDigits 10 n ≠ [] := toDigitsCore_ne_nil _ _ _ (by omega)
    have hv : digitsValue (Nat.toDigits 10 n) = n := by
      unfold digitsValue Nat.toDigits
      rw [foldl_toDigitsCore _ _ _ (by omega)]
      rfl
    have := (parse_digits _ hne hall).1
    rw [hv] at this
    exact this
  | negSucc n =>
    have hall : ∀ c ∈ Nat.toDigits 10 (n + 1), isDecimalDigit c = true :=
      all_digits_toDigitsCore _ _ _ (by simp)
    have hne : Nat.toDigits 10 (n + 1) ≠ [] := toDigitsCore_ne_nil _ _ _ (by omega)
    have hv : digitsValue (Nat.toDigits 10 (n + 1)) = n + 1 := by
      unfold digitsValue Nat.toDigits
      rw [foldl_toDigitsCore _ _ _ (by omega)]
      rfl
    have := (parse_digits _ hne hall).2
    rw [hv] at this
    simpa [intToString, Int.negSucc_eq] using this

theorem intToString_ne_nil (t : Int) : intToString t ≠ [] := by
  cases t with
  | ofNat n => exact toDigitsCore_ne_nil _ _ _ (by omega)
  | negSucc n => simp [intToString]

/-! ### Frame lemmas -/

@[simp] theorem updateClaimButton_localStorage (t : Option Int) (s : State) :
    (updateClaimButton t s).localStorage = s.localStorage := by
  unfold updateClaimButton; split <;> rfl

@[simp] theorem updateClaimButton_now (t : Option Int) (s : State) :
    (updateClaimButton t s).now = s.now := by
  unfold updateClaimButton; split <;> rfl

@[simp] theorem refreshBalancesStart_localStorage (a : Str) (s : State) :
    (refreshBalancesStart a s).localStorage = s.localStorage := by
  unfold refreshBalancesStart; split <;> rfl

@[simp] theorem refreshBalancesDone_localStorage (a : Str) (r : BalanceReply) (s : State) :
    (refreshBalancesDone a r s).localStorage = s.localStorage := by
  unfold refreshBalancesDone; split
  · rfl
  · cases r <;> rfl

@[simp] theorem claimFinally_localStorage (a : Str) (s : State) :
    (claimFinally a s).localStorage = s.localStorage := by
  unfold claimFinally
  dsimp only
  split
  · split
    · rfl
    · simp
  · rfl

@[simp] theorem timerTick_localStorage (s : State) :
    (timerTick s).localStorage = s.localStorage := by
  unfold timerTick
  dsimp only
  split
  · rfl
  · split
    · split <;> simp
    · simp

@[simp] theorem startTimer_localStorage (s : State) :
    (startTimer s).localStorage = s.localStorage := rfl

@[simp] theorem connectWallet_localStorage (ca : Str → Except String Str) (pk : Option Str) (s : State) :
    (connectWallet ca pk s).localStorage = s.localStorage := by
  unfold connectWallet
  dsimp only
  split
  · rfl
  · simp

@[simp] theorem connectResume_localStorage (i : Nat) (r : BalanceReply) (s : State) :
    (connectResume i r s).localStorage = s.localStorage := by
  unfold connectResume
  split
  · rfl
  · simp

@[simp] theorem connectWalletRun_localStorage (ca : Str → Except String Str) (pk : Option Str)
    (r : BalanceReply) (s : State) :
    (connectWalletRun ca pk r s).localStorage = s.localStorage := by
  unfold connectWalletRun
  split
  · rfl
  · simp

@[simp] theorem connectClick_localStorage (ca : Str → Except String Str) (s : State) :
    (connectClick ca s).localStorage = s.localStorage := by
  unfold connectClick
  dsimp only
  split
  · rfl
  · simp

@[simp] theorem claimClick_localStorage (s : State) :
    (claimClick s).localStorage = s.localStorage := by
  unfold claimClick
  split
  · rfl
  · dsimp only
    split <;> rfl

@[simp] theorem claimRefreshDone_localStorage (i : Nat) (r : BalanceReply) (s : State) :
    (claimRefreshDone i r s).localStorage = s.localStorage := by
  unfold claimRefreshDone
  split
  · rfl
  · simp

/-! ### Storage lemmas -/

theorem getItem_setItem (st : Storage) (k v k2 : Str) :
    getItem (setItem st k v) k2 = if k = k2 then some v else getItem st k2 := by
  induction st with
  | nil => simp [setItem, getItem]
  | cons e rest ih =>
    obtain ⟨k0, v0⟩ := e
    by_cases h0 : k0 = k
    · subst h0
      by_cases h2 : k0 = k2
      · simp [setItem, getItem, h2]
      · simp [setItem, getItem, h2]
    · by_cases h2 : k0 = k2
      · subst h2
        have hk : ¬ k = k0 := fun h => h0 h.symm
        simp [setItem, getItem, h0, hk]
      · simp [setItem, getItem, h0, h2, ih]

theorem getItem_removeItem_ne (st : Storage) (k k2 : Str) (h : k2 ≠ k) :
    getItem (removeItem st k) k2 = getItem st k2 := by
  induction st with
  | nil => rfl
  | cons e rest ih =>
    obtain ⟨k0, v0⟩ := e
    by_cases h0 : k0 = k
    · subst h0
      have hk : ¬ k0 = k2 := fun h2 => h h2.symm
      simp [removeItem, getItem, hk, ih]
    · by_cases h2 : k0 = k2
      · subst h2
        simp [removeItem, getItem, h0]
      · simp [removeItem, getItem, h0, h2, ih]

theorem getItem_removeItem_self (st : Storage) (k : Str) :
    getItem (removeItem st k) k = none := by
  induction st with
  | nil => rfl
  | cons e rest ih =>
    obtain ⟨k0, v0⟩ := e
    by_cases h0 : k0 = k
    · simp [removeItem, h0, ih]
    · simp [removeItem, getItem, h0, ih]

theorem mem_removeItem (st : Storage) (k : Str) (e : Str × Str) (h : e ∈ removeItem st k) :
    e ∈ st := by
  induction st with
  | nil => simp [removeItem] at h
  | cons e0 rest ih =>
    obtain ⟨k0, v0⟩ := e0
    by_cases h0 : k0 = k
    · simp only [removeItem, h0, if_true] at h
      exact List.mem_cons_of_mem _ (ih h)
    · simp only [removeItem, h0, if_false] at h
      rcases List.mem_cons.1 h with rfl | h
      · exact List.mem_cons_self _ _
      · exact List.mem_cons_of_mem _ (ih h)

theorem mem_setItem (st : Storage) (k v : Str) (e : Str × Str) (h : e ∈ setItem st k v) :
    e ∈ st ∨ e = (k, v) := by
  induction st with
  | nil => right; simpa [setItem] using h
  | cons e0 rest ih =>
    obtain ⟨k0, v0⟩ := e0
    by_cases h0 : k0 = k
    · simp only [setItem, h0, if_true] at h
      rcases List.mem_cons.1 h with rfl | h
      · right; rfl
      · left; exact List.mem_cons_of_mem _ h
    · simp only [setItem, h0, if_false] at h
      rcases List.mem_cons.1 h with rfl | h
      · left; exact List.mem_cons_self _ _
      · rcases ih h with h | h
        · left; exact List.mem_cons_of_mem _ h
        · right; exact h

theorem cooldownKey_inj (a b : Str) : cooldownKey a = cooldownKey b ↔ a = b := by
  unfold cooldownKey
  exact List.append_right_inj _

theorem cooldownKey_ne_legacy (a : Str) : cooldownKey a ≠ "balbiPrivateKey".toList := by
  intro h
  have := congrArg List.head? h
  simp [cooldownKey] at this

theorem cooldownKey_ne_cookie (a : Str) : cooldownKey a ≠ "cookieConsent".toList := by
  intro h
  have := congrArg List.head? h
  simp [cooldownKey] at this

/-! ## The divisions of the countdown -/

theorem scaleUp_spec (C fuel : Nat) : ∀ (num den shift : Nat),
    C * den ≤ num * 2 ^ fuel →
    ∃ k, (scaleUp C fuel num den shift) = (num * 2 ^ k, shift + k) ∧ C * den ≤ num * 2 ^ k := by
  induction fuel with
  | zero =>
    intro num den shift h
    exact ⟨0, by simp [scaleUp], by simpa using h⟩
  | succ fuel ih =>
    intro num den shift h
    unfold scaleUp
    split
    · have h2 : C * den ≤ 2 * num * 2 ^ fuel := by
        calc C * den ≤ num * 2 ^ (fuel + 1) := h
          _ = 2 * num * 2 ^ fuel := by rw [pow_succ]; ring
      obtain ⟨k, hk, hb⟩ := ih (2 * num) den (shift + 1) h2
      refine ⟨k + 1, ?_, ?_⟩
      · rw [hk]
        have e1 : 2 * num * 2 ^ k = num * 2 ^ (k + 1) := by rw [pow_succ]; ring
        have e2 : shift + 1 + k = shift + (k + 1) := by ring
        rw [e1, e2]
      · calc C * den ≤ 2 * num * 2 ^ k := hb
          _ = num * 2 ^ (k + 1) := by rw [pow_succ]; ring
    · rename_i hge
      exact ⟨0, by simp, by simpa using Nat.le_of_not_lt hge⟩

theorem roundHalfEven_div (a b P : Nat) (hb : 0 < b) (hP : 0 < P) (hbP : b < 2 * P) :
    roundHalfEven (a * P) b / P = a / b := by
  obtain ⟨k, r, hrlt, rfl⟩ : ∃ k r, r < b ∧ a = b * k + r :=
    ⟨a / b, a % b, Nat.mod_lt _ hb, (Nat.div_add_mod a b).symm⟩
  obtain ⟨j, rem, hremlt, hjr⟩ : ∃ j rem, rem < b ∧ r * P = b * j + rem :=
    ⟨r * P / b, r * P % b, Nat.mod_lt _ hb, (Nat.div_add_mod (r * P) b).symm⟩
  have hjlt : j < P := by
    by_contra hcon
    have h1 : b * P ≤ b * j := Nat.mul_le_mul_left _ (Nat.le_of_not_lt hcon)
    have h2 : r * P < b * P := Nat.mul_lt_mul_of_pos_right hrlt hP
    omega
  have hnum : (b * k + r) * P = b * (k * P + j) + rem := by
    calc (b * k + r) * P = b * (k * P) + r * P := by ring
      _ = b * (k * P) + (b * j + rem) := by rw [hjr]
      _ = b * (k * P + j) + rem := by ring
  have hq : (b * k + r) * P / b = k * P + j := by
    rw [hnum, Nat.mul_add_div hb, Nat.div_eq_of_lt hremlt, Nat.add_zero]
  have hm : (b * k + r) * P % b = rem := by
    rw [hnum, Nat.mul_add_mod, Nat.mod_eq_of_lt hremlt]
  have hk : (b * k + r) / b = k := by
    rw [Nat.mul_add_div hb, Nat.div_eq_of_lt hrlt, Nat.add_zero]
  have hbase : ∀ i, i < P → (k * P + i) / P = k := by
    intro i hi
    rw [Nat.add_comm, Nat.add_mul_div_right _ _ hP, Nat.div_eq_of_lt hi, Nat.zero_add]
  unfold roundHalfEven
  rw [hq, hm, hk]
  split
  · rename_i hup
    have h2rem : b ≤ 2 * rem := by
      rcases hup with h | h <;> omega
    have hj1 : j + 1 < P := by
      by_contra hcon
      have hjeq : j + 1 = P := by omega
      have e1 : b * P = b * j + b := by rw [← hjeq]; ring
      have h2 : r * P + P ≤ b * P := by
        calc r * P + P = (r + 1) * P := by ring
          _ ≤ b * P := Nat.mul_le_mul_right _ hrlt
      omega
    rw [Nat.add_assoc]
    exact hbase (j + 1) hj1
  · exact hbase j hjlt

theorem floorDoubleDiv_eq_div (a b : Nat) (ha : a < 2 ^ 53) (hb : 0 < b) :
    floorDoubleDiv a b = a / b := by
  unfold floorDoubleDiv
  by_cases h0 : a = 0
  · simp [h0]
  have hapos : 0 < a := Nat.pos_of_ne_zero h0
  have e53 : (2:Nat) ^ 53 = 2 * 2 ^ 52 := by norm_num
  generalize hC : (2:Nat) ^ 52 = C at *
  rw [e53] at ha ⊢
  have hCpos : 0 < C := by rw [← hC]; positivity
  have hlt : a < 2 * C * b := by
    calc a < 2 * C := ha
      _ = 2 * C * 1 := by ring
      _ ≤ 2 * C * b := Nat.mul_le_mul_left _ hb
  simp only [h0, hlt, if_true, if_false]
  have hfuel : C * b ≤ a * 2 ^ (53 + b) := by
    have h1 : b ≤ 2 ^ b := Nat.le_of_lt (Nat.lt_two_pow b)
    have h2 : (2:Nat) ^ (53 + b) = 2 * 2 ^ 52 * 2 ^ b := by rw [pow_add]; norm_num
    rw [h2, hC]
    calc C * b ≤ C * 2 ^ b := Nat.mul_le_mul_left _ h1
      _ ≤ 1 * (2 * C * 2 ^ b) := by
        have : C * 2 ^ b ≤ 2 * (C * 2 ^ b) := by omega
        calc C * 2 ^ b ≤ 2 * (C * 2 ^ b) := this
          _ = 1 * (2 * C * 2 ^ b) := by ring
      _ ≤ a * (2 * C * 2 ^ b) := Nat.mul_le_mul_right _ hapos
  obtain ⟨s, hs, hlow⟩ := scaleUp_spec C (53 + b) a b 0 hfuel
  rw [hs]
  simp only [Nat.zero_add]
  have hPpos : 0 < 2 ^ s := by positivity
  have hbP : b < 2 * 2 ^ s := by
    have h1 : a * 2 ^ s < 2 * C * 2 ^ s := Nat.mul_lt_mul_of_pos_right ha hPpos
    have h2 : C * b < C * (2 * 2 ^ s) := by
      calc C * b ≤ a * 2 ^ s := hlow
        _ < 2 * C * 2 ^ s := h1
        _ = C * (2 * 2 ^ s) := by ring
    exact Nat.lt_of_mul_lt_mul_left h2
  exact roundHalfEven_div a b (2 ^ s) hb hPpos hbP


theorem mathFloorDiv_eq_div (a : Int) (b : Nat) (h0 : 0 ≤ a) (h1 : a < 2 ^ 53) (hb : 0 < b) :
    mathFloorDiv a b = a / (b : Int) := by
  obtain ⟨n, rfl⟩ := Int.eq_ofNat_of_zero_le h0
  have hn : n < 2 ^ 53 := by exact_mod_cast h1
  show ((floorDoubleDiv n b : Nat) : Int) = (n : Int) / (b : Int)
  rw [floorDoubleDiv_eq_div n b hn hb]
  exact Int.ofNat_ediv n b

/-- C9 as stated fails: `100000000000000041943040` is an integer that a double
holds (`5960464477539065 * 2 ^ 24`, the significand below `2 ^ 53`); for it the
double division of `updateClaimButton` yields `27777777777777788` hours where
the exact quotient is `27777777777777789`, so the time shown falls short of
`timeLeft` by more than an hour and the upper bound of the claim fails. -/
theorem countdown_off_beyond_exact_integers :
    (0 : Int) < 100000000000000041943040
    ∧ (100000000000000041943040 : Int) = 5960464477539065 * 2 ^ 24
    ∧ (5960464477539065 : Int) < 2 ^ 53
    ∧ countdownHours 100000000000000041943040 = 27777777777777788
    ∧ countdownMinutes 100000000000000041943040 = 25
    ∧ countdownSeconds 100000000000000041943040 = 43
    ∧ ¬ ((100000000000000041943040 : Int)
          < countdownHours 100000000000000041943040 * 3600000
            + countdownMinutes 100000000000000041943040 * 60000
            + countdownSeconds 100000000000000041943040 * 1000 + 1000) := by
  refine ⟨by decide, by decide, by decide, by decide, by decide, by decide, by decide⟩

/-- C9, amended: the countdown of `updateClaimButton` is an exact base-60
decomposition for every `timeLeft` in the range where a double holds every
integer.  For an integer `0 < timeLeft < 2 ^ 53 = 9007199254740992` the hours,
minutes and seconds shown satisfy `0 ≤ m < 60`, `0 ≤ s < 60` and
`h * 3600000 + m * 60000 + s * 1000 ≤ timeLeft < h * 3600000 + m * 60000 + s * 1000 + 1000`,
the button is disabled and the text is `Next claim in: <h>h <m>m <s>s`; for
every integer `timeLeft ≤ 0` the button is enabled and the text is
`Ready to claim!`; for `timeLeft = 14400000` the text is
`Next claim in: 4h 0m 0s`. -/
theorem updateClaimButton_countdown (timeLeft : Int) (s : State) :
    (0 < timeLeft → timeLeft < 9007199254740992 →
      0 ≤ countdownHours timeLeft
      ∧ 0 ≤ countdownMinutes timeLeft ∧ countdownMinutes timeLeft < 60
      ∧ 0 ≤ countdownSeconds timeLeft ∧ countdownSeconds timeLeft < 60
      ∧ countdownHours timeLeft * 3600000 + countdownMinutes timeLeft * 60000
          + countdownSeconds timeLeft * 1000 ≤ timeLeft
      ∧ timeLeft < countdownHours timeLeft * 3600000 + countdownMinutes timeLeft * 60000
          + countdownSeconds timeLeft * 1000 + 1000
      ∧ (updateClaimButton (some timeLeft) s).claimDisabled = true
      ∧ (updateClaimButton (some timeLeft) s).claimTimerDiv
          = "Next claim in: ".toList ++ intToString (countdownHours timeLeft) ++ "h ".toList
            ++ intToString (countdownMinutes timeLeft) ++ "m ".toList
            ++ intToString (countdownSeconds timeLeft) ++ "s".toList)
    ∧ (timeLeft ≤ 0 →
        (updateClaimButton (some timeLeft) s).claimDisabled = false
        ∧ (updateClaimButton (some timeLeft) s).claimTimerDiv = "Ready to claim!".toList)
    ∧ (updateClaimButton (some 14400000) s).claimTimerDiv = "Next claim in: 4h 0m 0s".toList := by
  refine ⟨?_, ?_, ?_⟩
  · intro h hlt
    have hz : leZero (some timeLeft) = false := by
      simp only [leZero, decide_eq_false_iff_not]; omega
    have hm1 : timeLeft.tmod (1000 * 60 * 60) = timeLeft % 3600000 :=
      Int.tmod_eq_emod (le_of_lt h) (by norm_num)
    have hm2 : timeLeft.tmod (1000 * 60) = timeLeft % 60000 :=
      Int.tmod_eq_emod (le_of_lt h) (by norm_num)
    have hh : countdownHours timeLeft = timeLeft / 3600000 := by
      unfold countdownHours
      rw [mathFloorDiv_eq_div timeLeft _ (le_of_lt h) (by norm_num; omega) (by norm_num)]
      norm_num
    have hm : countdownMinutes timeLeft = timeLeft % 3600000 / 60000 := by
      unfold countdownMinutes
      rw [hm1, mathFloorDiv_eq_div _ _ (by omega) (by norm_num; omega) (by norm_num)]
      norm_num
    have hs : countdownSeconds timeLeft = timeLeft % 60000 / 1000 := by
      unfold countdownSeconds
      rw [hm2, mathFloorDiv_eq_div _ _ (by omega) (by norm_num; omega) (by norm_num)]
      norm_num
    refine ⟨?_, ?_, ?_, ?_, ?_, ?_, ?_, ?_, ?_⟩
    · rw [hh]; omega
    · rw [hm]; omega
    · rw [hm]; omega
    · rw [hs]; omega
    · rw [hs]; omega
    · rw [hh, hm, hs]; omega
    · rw [hh, hm, hs]; omega
    · simp [updateClaimButton, hz]
    · simp only [updateClaimButton, hz, countdownText, numberToString, Option.map_some',
        Bool.false_eq_true, if_false]
  · intro h
    have hz : leZero (some timeLeft) = true := by
      simp only [leZero, decide_eq_true_eq]; exact h
    simp [updateClaimButton, hz]
  · rfl

theorem updateClaimButton_countdown_witness :
    (0 : Int) < 3723456 ∧ (3723456 : Int) < 9007199254740992
    ∧ countdownHours 3723456 = 1 ∧ countdownMinutes 3723456 = 2 ∧ countdownSeconds 3723456 = 3
    ∧ (updateClaimButton (some 3723456) cooldownState).claimDisabled = true
    ∧ (updateClaimButton (some 3723456) cooldownState).claimTimerDiv
        = "Next claim in: ".toList ++ intToString (countdownHours 3723456) ++ "h ".toList
          ++ intToString (countdownMinutes 3723456) ++ "m ".toList
          ++ intToString (countdownSeconds 3723456) ++ "s".toList :=
  ⟨by decide, by decide, by decide, by decide, by decide,
    ((updateClaimButton_countdown 3723456 cooldownState).1 (by decide) (by decide)).2.2.2.2.2.2.2.1,
    ((updateClaimButton_countdown 3723456 cooldownState).1 (by decide) (by decide)).2.2.2.2.2.2.2.2⟩

theorem isEmpty_false_of_ne {s : Str} (h : s ≠ []) : s.isEmpty = false := by
  cases s with
  | nil => exact absurd rfl h
  | cons c r => rfl

theorem updateClaimButton_disabled (t : Int) (s : State) :
    (updateClaimButton (some t) s).claimDisabled = decide (0 < t) := by
  unfold updateClaimButton
  by_cases h : t ≤ 0
  · have hz : leZero (some t) = true := by simp [leZero, h]
    have : ¬ 0 < t := by omega
    simp [hz, this]
  · have hz : leZero (some t) = false := by simp [leZero, h]
    have : 0 < t := by omega
    simp [hz, this]

/-- C1: one run of the timer tick applies the four-hour cooldown exactly.  Let
`A` be the displayed address as the tick reads it (the text of
`addressDisplay`, trimmed).  If `A` is not empty and the record
`lastClaimTime_A` holds the decimal integer `t`, the tick leaves the claim
button disabled iff `now < t + 14400000`, and enabled with the text
`Ready to claim!` otherwise; if `A` is not empty and has no record, the tick
enables the button; if `A` is empty, the tick disables the button and clears
the timer text. -/
theorem timerTick_applies_cooldown (s : State) :
    (trim s.addressDisplay ≠ [] →
      (∀ t : Int,
        getItem s.localStorage (cooldownKey (trim s.addressDisplay)) = some (intToString t) →
          ((timerTick s).claimDisabled = true ↔ s.now < t + 14400000)
          ∧ (¬ s.now < t + 14400000 →
              (timerTick s).claimDisabled = false
              ∧ (timerTick s).claimTimerDiv = "Ready to claim!".toList))
      ∧ (getItem s.localStorage (cooldownKey (trim s.addressDisplay)) = none →
          (timerTick s).claimDisabled = false
          ∧ (timerTick s).claimTimerDiv = "Ready to claim!".toList))
    ∧ (trim s.addressDisplay = [] →
        (timerTick s).claimDisabled = true ∧ (timerTick s).claimTimerDiv = []) := by
  refine ⟨fun hA => ⟨?_, ?_⟩, ?_⟩
  · intro t ht
    have he := isEmpty_false_of_ne hA
    have hv := isEmpty_false_of_ne (intToString_ne_nil t)
    have htick : timerTick s = updateClaimButton (some (t + cooldownMs - s.now)) s := by
      simp only [timerTick, he, ht, hv, timeLeftOf, parseInt_intToString, Option.map_some',
        Bool.false_eq_true, if_false]
    rw [htick]
    constructor
    · rw [updateClaimButton_disabled]
      simp only [decide_eq_true_eq, cooldownMs]
      omega
    · intro hnot
      have hz : leZero (some (t + cooldownMs - s.now)) = true := by
        simp only [leZero, decide_eq_true_eq, cooldownMs]; omega
      simp [updateClaimButton, hz]
  · intro hnone
    have he := isEmpty_false_of_ne hA
    have htick : timerTick s = updateClaimButton (some 0) s := by
      simp only [timerTick, he, hnone, Bool.false_eq_true, if_false]
    rw [htick]
    exact ⟨rfl, rfl⟩
  · intro hA
    simp [timerTick, hA]

theorem timerTick_applies_cooldown_witness :
    trim cooldownState.addressDisplay ≠ []
    ∧ getItem cooldownState.localStorage (cooldownKey (trim cooldownState.addressDisplay))
        = some (intToString 1000)
    ∧ ((timerTick cooldownState).claimDisabled = true ↔ cooldownState.now < 1000 + 14400000)
    ∧ cooldownState.now < 1000 + 14400000 :=
  ⟨by decide, by decide,
    ((((timerTick_applies_cooldown cooldownState).1 (by decide)).1 1000 (by decide)).1),
    by decide⟩

theorem claimResponse_localStorage (i : Nat) (reply : ClaimReply) (s : State) :
    (claimResponse i reply s).localStorage =
      match s.pendingClaims[i]?, reply with
      | some w, ClaimReply.ok _ =>
        if s.storageFull then s.localStorage
        else setItem s.localStorage (cooldownKey w) (intToString s.now)
      | _, _ => s.localStorage := by
  unfold claimResponse
  cases hget : s.pendingClaims[i]? with
  | none => rfl
  | some w =>
    cases reply with
    | ok txHash =>
      cases hfull : s.storageFull <;> simp [hfull]
    | okNull => simp
    | notOk e t => simp
    | failed => simp

/-- C3 as stated fails: in `pendingState` a claim request for the wallet of key
`2` is pending and that wallet has no record.  An OK answer whose body is
`null` shows the success text and leaves the wallet without a record; so does
an OK answer with a body when the browser refuses the write. -/
theorem ok_reply_without_record :
    pendingState.pendingClaims[0]? = some addressTwo
    ∧ getItem pendingState.localStorage (cooldownKey addressTwo) = none
    ∧ (step demoComputeAddress (Op.claimResponse 0 ClaimReply.okNull)
        pendingState).claimSuccessDiv = "Tokens sent successfully!".toList
    ∧ getItem
        (step demoComputeAddress (Op.claimResponse 0 ClaimReply.okNull)
          pendingState).localStorage (cooldownKey addressTwo) = none
    ∧ getItem
        (run demoComputeAddress
          [Op.storageQuota true, Op.claimResponse 0 (ClaimReply.ok "0xabc".toList)]
          pendingState).localStorage (cooldownKey addressTwo) = none := by
  refine ⟨by decide, by decide, by decide, by decide, by decide⟩

/-- C3, amended: a cooldown record changes only through a successful claim for
its own address whose handler reaches the write.  For every address and every
step of the page, the value stored under `lastClaimTime_<address>` after the
step is the value before it, unless the step is the OK answer, with a body
other than `null`, to a claim request made for that address while the browser
accepts the write; in that case the value becomes the decimal form of the
clock at that moment.  An OK answer whose body is `null`, an OK answer whose
write the browser refuses, load, the cookie banner, typing, connect, timer and
balance ticks, logout, a refused claim, a failed claim and a successful claim
for another address leave the record as it is. -/
theorem cooldown_record_frame (computeAddress : Str → Except String Str) (op : Op) (s : State)
    (address : Str) :
    (∀ i txHash, op = Op.claimResponse i (ClaimReply.ok txHash) →
        s.pendingClaims[i]? = some address → s.storageFull = false →
        getItem (step computeAddress op s).localStorage (cooldownKey address)
          = some (intToString s.now))
    ∧ ((¬ ∃ i txHash, op = Op.claimResponse i (ClaimReply.ok txHash)
            ∧ s.pendingClaims[i]? = some address ∧ s.storageFull = false) →
        getItem (step computeAddress op s).localStorage (cooldownKey address)
          = getItem s.localStorage (cooldownKey address)) := by
  constructor
  · rintro i txHash rfl hi hfull
    simp only [step, claimResponse_localStorage, hi, hfull, getItem_setItem, if_true,
      Bool.false_eq_true, if_false]
  · intro hno
    cases op with
    | load =>
      simp only [step, onload]
      exact getItem_removeItem_ne _ _ _ (cooldownKey_ne_legacy address)
    | acceptCookies =>
      simp only [step, acceptCookies]
      split
      · rfl
      · simp only [getItem_setItem]
        rw [if_neg (fun h => cooldownKey_ne_cookie address h.symm)]
    | typeKey v => rfl
    | connectClick => simp [step]
    | connectResume i r => simp [step]
    | timerTick => simp only [step]; split <;> simp
    | refreshTick => simp only [step]; split <;> simp
    | refreshDone i r => simp only [step]; split <;> simp
    | claimClick => simp [step]
    | claimResponse i reply =>
      simp only [step, claimResponse_localStorage]
      cases hget : s.pendingClaims[i]? with
      | none => rfl
      | some w =>
        cases reply with
        | ok txHash =>
          cases hfull : s.storageFull with
          | true => rfl
          | false =>
            have hne : w ≠ address := by
              rintro rfl
              exact hno ⟨i, txHash, rfl, hget, hfull⟩
            have hk : ¬ cooldownKey w = cooldownKey address :=
              fun h => hne ((cooldownKey_inj _ _).1 h)
            simp only [getItem_setItem, hk, if_false, Bool.false_eq_true]
        | okNull => rfl
        | notOk e t => rfl
        | failed => rfl
    | claimRefreshDone i r => simp [step]
    | logout => rfl
    | advance ms => rfl
    | storageQuota full => rfl

theorem cooldown_record_frame_witness :
    pendingState.pendingClaims[0]? = some addressTwo
    ∧ pendingState.storageFull = false
    ∧ getItem pendingState.localStorage (cooldownKey addressTwo) = none
    ∧ getItem
        (step demoComputeAddress (Op.claimResponse 0 (ClaimReply.ok "0xabc".toList))
          pendingState).localStorage (cooldownKey addressTwo)
        = some (intToString pendingState.now) :=
  ⟨by decide, by decide, by decide,
    (cooldown_record_frame demoComputeAddress
      (Op.claimResponse 0 (ClaimReply.ok "0xabc".toList)) pendingState addressTwo).1
      0 "0xabc".toList rfl (by decide) (by decide)⟩

/-- C8: `sanitizePk` deletes white space and nothing else.  Its result is the
input with every white-space character removed and the others kept in order;
the result contains no white space; the leading `trim` is redundant; the
function is idempotent; for `null`, `undefined` and the empty string the
result is the empty string. -/
theorem sanitizePk_deletes_whitespace (pk : Option Str) :
    sanitizePk pk = (pk.getD []).filter (fun c => !isWhiteSpace c)
    ∧ (∀ c ∈ sanitizePk pk, isWhiteSpace c = false)
    ∧ sanitizePk pk = replaceWhiteSpaceRuns [] (pk.getD [])
    ∧ sanitizePk (some (sanitizePk pk)) = sanitizePk pk
    ∧ sanitizePk none = [] ∧ sanitizePk (some []) = [] := by
  refine ⟨sanitizePk_eq_filter pk, ?_, ?_, ?_, by decide, by decide⟩
  · intro c hc
    rw [sanitizePk_eq_filter] at hc
    simpa using (List.mem_filter.1 hc).2
  · rw [sanitizePk_eq_filter, replaceWhiteSpaceRuns, replaceRunsFrom_nil]
  · rw [sanitizePk_eq_filter (some _), sanitizePk_eq_filter pk]
    simp [List.filter_filter]

theorem sanitizePk_deletes_whitespace_witness :
    sanitizePk (some " 0x12 ab\tcd \n".toList) = "0x12abcd".toList
    ∧ (∀ c ∈ sanitizePk (some " 0x12 ab\tcd \n".toList), isWhiteSpace c = false) :=
  ⟨by decide, (sanitizePk_deletes_whitespace (some " 0x12 ab\tcd \n".toList)).2.1⟩

theorem derive_nil_rejected (ca : Str → Except String Str) :
    deriveAddressFromPrivateKey ca [] = Except.error "Invalid private key format" := by
  rfl

/-- C5: the private key is never stored.  For every private-key input and every
prior state, the browser storage after `connectWallet` (up to its `await`, run
to its end, or started from a click on the connect button) is the storage
before it; and `window.onload` removes the legacy entry `balbiPrivateKey`. -/
theorem connectWallet_keeps_storage (computeAddress : Str → Except String Str) (privateKey : Option Str)
    (reply : BalanceReply) (s : State) :
    (connectWallet computeAddress privateKey s).localStorage = s.localStorage
    ∧ (connectWalletRun computeAddress privateKey reply s).localStorage = s.localStorage
    ∧ (connectClick computeAddress
        { s with privateKeyInput := privateKey.getD [] }).localStorage = s.localStorage
    ∧ getItem (onload s).localStorage "balbiPrivateKey".toList = none := by
  refine ⟨by simp, by simp, by simp, ?_⟩
  simp only [onload]
  exact getItem_removeItem_self _ _

/-- C7: the transition from login to connected happens only for a valid key.
For every input whose sanitized form `deriveAddressFromPrivateKey` rejects,
because the key is malformed or because `computeAddress` throws on it,
`connectWallet` (up to its `await`, run to its end, or started from a click on
the connect button) leaves the whole state as it is: sections, displayed
address, claim button, both intervals.  For every accepted input it hides the
login section, shows the two wallet sections and sets the displayed address to
the derived address. -/
theorem connectWallet_transition (computeAddress : Str → Except String Str) (privateKey : Option Str)
    (reply : BalanceReply) (s : State) :
    (∀ e, deriveAddressFromPrivateKey computeAddress (sanitizePk privateKey) = Except.error e →
      connectWallet computeAddress privateKey s = s
      ∧ connectWalletRun computeAddress privateKey reply s = s
      ∧ (s.privateKeyInput = privateKey.getD [] → connectClick computeAddress s = s))
    ∧ (∀ a, deriveAddressFromPrivateKey computeAddress (sanitizePk privateKey) = Except.ok a →
      ((connectWallet computeAddress privateKey s).loginSection = Display.hidden
        ∧ (connectWallet computeAddress privateKey s).walletAddressDiv = Display.block
        ∧ (connectWallet computeAddress privateKey s).walletInfoDiv = Display.block
        ∧ (connectWallet computeAddress privateKey s).addressDisplay = a)
      ∧ ((connectWalletRun computeAddress privateKey reply s).loginSection = Display.hidden
        ∧ (connectWalletRun computeAddress privateKey reply s).walletAddressDiv = Display.block
        ∧ (connectWalletRun computeAddress privateKey reply s).walletInfoDiv = Display.block
        ∧ (connectWalletRun computeAddress privateKey reply s).addressDisplay = a)
      ∧ (s.privateKeyInput = privateKey.getD [] →
          (connectClick computeAddress s).loginSection = Display.hidden
          ∧ (connectClick computeAddress s).walletAddressDiv = Display.block
          ∧ (connectClick computeAddress s).walletInfoDiv = Display.block
          ∧ (connectClick computeAddress s).addressDisplay = a)) := by
  have hsan : ∀ v : Str, sanitizePk (some v) = sanitizePk privateKey → 
      sanitizePk (some (sanitizePk (some v))) = sanitizePk privateKey := by
    intro v hv
    rw [sanitizePk_idem, hv]
  have hinput : s.privateKeyInput = privateKey.getD [] →
      sanitizePk (some s.privateKeyInput) = sanitizePk privateKey := by
    intro h
    rw [h]
    cases privateKey <;> rfl
  constructor
  · intro e he
    refine ⟨?_, ?_, ?_⟩
    · simp only [connectWallet, he]
    · simp only [connectWalletRun, he]
    · intro hin
      have h1 := hinput hin
      unfold connectClick
      dsimp only
      split
      · rfl
      · simp only [connectWallet, hsan _ h1, he]
  · intro a ha
    have hstart : ∀ t : State, (refreshBalancesStart a t).loginSection = t.loginSection
        ∧ (refreshBalancesStart a t).walletAddressDiv = t.walletAddressDiv
        ∧ (refreshBalancesStart a t).walletInfoDiv = t.walletInfoDiv
        ∧ (refreshBalancesStart a t).addressDisplay = t.addressDisplay := by
      intro t
      unfold refreshBalancesStart
      split <;> exact ⟨rfl, rfl, rfl, rfl⟩
    have hcw : ∀ q : Option Str, sanitizePk q = sanitizePk privateKey →
        (connectWallet computeAddress q s).loginSection = Display.hidden
        ∧ (connectWallet computeAddress q s).walletAddressDiv = Display.block
        ∧ (connectWallet computeAddress q s).walletInfoDiv = Display.block
        ∧ (connectWallet computeAddress q s).addressDisplay = a := by
      intro q hq
      simp only [connectWallet, hq, ha]
      obtain ⟨h1, h2, h3, h4⟩ := hstart
        { s with loginSection := Display.hidden, walletAddressDiv := Display.block,
                 walletInfoDiv := Display.block, addressDisplay := a }
      exact ⟨h1, h2, h3, h4⟩
    have hdone : ∀ (w : Str) (t : State), (refreshBalancesDone w reply t).loginSection = t.loginSection
        ∧ (refreshBalancesDone w reply t).walletAddressDiv = t.walletAddressDiv
        ∧ (refreshBalancesDone w reply t).walletInfoDiv = t.walletInfoDiv
        ∧ (refreshBalancesDone w reply t).addressDisplay = t.addressDisplay := by
      intro w t
      unfold refreshBalancesDone
      split
      · exact ⟨rfl, rfl, rfl, rfl⟩
      · cases reply <;> exact ⟨rfl, rfl, rfl, rfl⟩
    have hres : ∀ (i : Nat) (t : State), (connectResume i reply t).loginSection = t.loginSection
        ∧ (connectResume i reply t).walletAddressDiv = t.walletAddressDiv
        ∧ (connectResume i reply t).walletInfoDiv = t.walletInfoDiv
        ∧ (connectResume i reply t).addressDisplay = t.addressDisplay := by
      intro i t
      unfold connectResume
      split
      · exact ⟨rfl, rfl, rfl, rfl⟩
      · rename_i w _
        obtain ⟨h1, h2, h3, h4⟩ := hdone w { t with pendingConnects := t.pendingConnects.eraseIdx i }
        exact ⟨h1, h2, h3, h4⟩
    refine ⟨hcw privateKey rfl, ?_, ?_⟩
    · simp only [connectWalletRun, ha]
      obtain ⟨h1, h2, h3, h4⟩ := hres ((connectWallet computeAddress privateKey s).pendingConnects.length - 1)
        (connectWallet computeAddress privateKey s)
      obtain ⟨g1, g2, g3, g4⟩ := hcw privateKey rfl
      exact ⟨h1.trans g1, h2.trans g2, h3.trans g3, h4.trans g4⟩
    · intro hin
      have h1 := hinput hin
      have hne : (sanitizePk (some s.privateKeyInput)).isEmpty = false := by
        cases hs : sanitizePk (some s.privateKeyInput) with
        | nil =>
          rw [← h1, hs, derive_nil_rejected] at ha
          cases ha
        | cons c r => rfl
      simp only [connectClick, hne, Bool.false_eq_true, if_false]
      exact hcw _ (hsan _ h1)

theorem connectWallet_transition_witness :
    deriveAddressFromPrivateKey demoComputeAddress (sanitizePk (some "not a key".toList))
      = Except.error "Invalid private key format"
    ∧ connectWallet demoComputeAddress (some "not a key".toList) (initialState [] 1000)
      = initialState [] 1000
    ∧ deriveAddressFromPrivateKey demoComputeAddress (sanitizePk (some keyZero))
      = Except.error "invalid private key"
    ∧ connectWallet demoComputeAddress (some keyZero) (initialState [] 1000)
      = initialState [] 1000
    ∧ deriveAddressFromPrivateKey demoComputeAddress (sanitizePk (some keyOne))
      = Except.ok addressOne
    ∧ (connectWallet demoComputeAddress (some keyOne) (initialState [] 1000)).addressDisplay
      = addressOne :=
  ⟨rfl,
    ((connectWallet_transition demoComputeAddress (some "not a key".toList) BalanceReply.error
      (initialState [] 1000)).1 _ rfl).1,
    rfl,
    ((connectWallet_transition demoComputeAddress (some keyZero) BalanceReply.error
      (initialState [] 1000)).1 _ rfl).1,
    rfl,
    ((connectWallet_transition demoComputeAddress (some keyOne) BalanceReply.error
      (initialState [] 1000)).2 addressOne rfl).1.2.2.2⟩

/-! ## Where the address reaches storage -/

@[simp] theorem updateClaimButton_addressDisplay (t : Option Int) (s : State) :
    (updateClaimButton t s).addressDisplay = s.addressDisplay := by
  unfold updateClaimButton; split <;> rfl

@[simp] theorem updateClaimButton_pendingClaims (t : Option Int) (s : State) :
    (updateClaimButton t s).pendingClaims = s.pendingClaims := by
  unfold updateClaimButton; split <;> rfl

@[simp] theorem refreshBalancesStart_addressDisplay (a : Str) (s : State) :
    (refreshBalancesStart a s).addressDisplay = s.addressDisplay := by
  unfold refreshBalancesStart; split <;> rfl

@[simp] theorem refreshBalancesStart_pendingClaims (a : Str) (s : State) :
    (refreshBalancesStart a s).pendingClaims = s.pendingClaims := by
  unfold refreshBalancesStart; split <;> rfl

@[simp] theorem refreshBalancesDone_addressDisplay (a : Str) (r : BalanceReply) (s : State) :
    (refreshBalancesDone a r s).addressDisplay = s.addressDisplay := by
  unfold refreshBalancesDone; split
  · rfl
  · cases r <;> rfl

@[simp] theorem refreshBalancesDone_pendingClaims (a : Str) (r : BalanceReply) (s : State) :
    (refreshBalancesDone a r s).pendingClaims = s.pendingClaims := by
  unfold refreshBalancesDone; split
  · rfl
  · cases r <;> rfl

@[simp] theorem claimFinally_addressDisplay (a : Str) (s : State) :
    (claimFinally a s).addressDisplay = s.addressDisplay := by
  unfold claimFinally
  dsimp only
  split
  · split
    · rfl
    · simp
  · rfl

@[simp] theorem claimFinally_pendingClaims (a : Str) (s : State) :
    (claimFinally a s).pendingClaims = s.pendingClaims := by
  unfold claimFinally
  dsimp only
  split
  · split
    · rfl
    · simp
  · rfl

@[simp] theorem timerTick_addressDisplay (s : State) :
    (timerTick s).addressDisplay = s.addressDisplay := by
  unfold timerTick
  dsimp only
  split
  · rfl
  · split
    · split <;> simp
    · simp

@[simp] theorem timerTick_pendingClaims (s : State) :
    (timerTick s).pendingClaims = s.pendingClaims := by
  unfold timerTick
  dsimp only
  split
  · rfl
  · split
    · split <;> simp
    · simp

@[simp] theorem connectResume_addressDisplay (i : Nat) (r : BalanceReply) (s : State) :
    (connectResume i r s).addressDisplay = s.addressDisplay := by
  unfold connectResume
  split
  · rfl
  · simp [startTimer]

@[simp] theorem connectResume_pendingClaims (i : Nat) (r : BalanceReply) (s : State) :
    (connectResume i r s).pendingClaims = s.pendingClaims := by
  unfold connectResume
  split
  · rfl
  · simp [startTimer]

@[simp] theorem claimRefreshDone_addressDisplay (i : Nat) (r : BalanceReply) (s : State) :
    (claimRefreshDone i r s).addressDisplay = s.addressDisplay := by
  unfold claimRefreshDone
  split
  · rfl
  · simp

@[simp] theorem claimRefreshDone_pendingClaims (i : Nat) (r : BalanceReply) (s : State) :
    (claimRefreshDone i r s).pendingClaims = s.pendingClaims := by
  unfold claimRefreshDone
  split
  · rfl
  · simp

@[simp] theorem claimResponse_addressDisplay (i : Nat) (reply : ClaimReply) (s : State) :
    (claimResponse i reply s).addressDisplay = s.addressDisplay := by
  unfold claimResponse
  split
  · rfl
  · cases reply with
    | ok txHash => dsimp only; split <;> simp
    | okNull => simp
    | notOk e t => simp
    | failed => simp

theorem claimResponse_pendingClaims (i : Nat) (reply : ClaimReply) (s : State) :
    (claimResponse i reply s).pendingClaims = s.pendingClaims
    ∨ (claimResponse i reply s).pendingClaims = s.pendingClaims.eraseIdx i := by
  unfold claimResponse
  split
  · left; rfl
  · right
    cases reply with
    | ok txHash => dsimp only; split <;> simp
    | okNull => simp
    | notOk e t => simp
    | failed => simp

theorem connectWallet_addressDisplay (ca : Str → Except String Str) (pk : Option Str) (s : State) :
    (connectWallet ca pk s).addressDisplay = s.addressDisplay
    ∨ ∃ k, ca k = Except.ok (connectWallet ca pk s).addressDisplay := by
  unfold connectWallet
  dsimp only
  cases hd : deriveAddressFromPrivateKey ca (sanitizePk pk) with
  | error e => left; rfl
  | ok a =>
    right
    refine ⟨formatKey (sanitizePk pk), ?_⟩
    have hk : IsPrefixedKey (formatKey (sanitizePk pk)) := by
      by_contra hk
      rw [derive_of_not_key ca _ hk] at hd
      cases hd
    rw [derive_of_key ca _ hk] at hd
    simp [hd]

@[simp] theorem connectWallet_pendingClaims (ca : Str → Except String Str) (pk : Option Str)
    (s : State) : (connectWallet ca pk s).pendingClaims = s.pendingClaims := by
  unfold connectWallet
  dsimp only
  split
  · rfl
  · simp

theorem isHexDigit_not_ws (c : Char) (h : isHexDigit c = true) : isWhiteSpace c = false := by
  simp only [isHexDigit, Bool.or_eq_true, Bool.and_eq_true, decide_eq_true_eq] at h
  simp only [isWhiteSpace, Bool.or_eq_false_iff, Bool.and_eq_false_imp, beq_eq_false_iff_ne,
    decide_eq_true_eq, decide_eq_false_iff_not, ne_eq]
  omega

theorem dropWhile_eq_self {p : Char → Bool} (l : Str) (h : ∀ c ∈ l, p c = false) :
    l.dropWhile p = l := by
  cases l with
  | nil => rfl
  | cons c r => simp [List.dropWhile, h c (List.mem_cons_self _ _)]

theorem trim_eq_self (l : Str) (h : ∀ c ∈ l, isWhiteSpace c = false) : trim l = l := by
  unfold trim
  rw [dropWhile_eq_self l h, dropWhile_eq_self l.reverse (fun c hc => h c (List.mem_reverse.1 hc)),
    List.reverse_reverse]

theorem ethAddress_no_ws {a : Str} (ha : IsEthAddress a) : ∀ c ∈ a, isWhiteSpace c = false := by
  obtain ⟨ds, rfl, -, hall⟩ := ha
  intro c hc
  rcases List.mem_cons.1 hc with rfl | hc
  · decide
  rcases List.mem_cons.1 hc with rfl | hc
  · decide
  · exact isHexDigit_not_ws c (hall c hc)

theorem ethAddress_trim {a : Str} (ha : IsEthAddress a) : trim a = a :=
  trim_eq_self a (ethAddress_no_ws ha)

theorem ethAddress_x_mem {a : Str} (ha : IsEthAddress a) : 'x' ∈ a := by
  obtain ⟨ds, rfl, -, -⟩ := ha
  simp

theorem ethAddress_length {a : Str} (ha : IsEthAddress a) : a.length = 42 := by
  obtain ⟨ds, rfl, hlen, -⟩ := ha
  simp [hlen]

theorem eq_of_infix_cooldownKey {a w : Str} (ha : IsEthAddress a) (hw : IsEthAddress w)
    (h : a <:+: cooldownKey w) : w = a := by
  obtain ⟨p, q, hpq⟩ := h
  have hla := ethAddress_length ha
  have hlw := ethAddress_length hw
  have hlen := congrArg List.length hpq
  simp only [cooldownKey, List.length_append, hla, hlw] at hlen
  have hk : ("lastClaimTime_".toList).length = 14 := by decide
  rw [hk] at hlen
  unfold cooldownKey at hpq
  rw [List.append_assoc] at hpq
  rcases List.append_eq_append_iff.1 hpq with ⟨a', h1, h2⟩ | ⟨c', h1, h2⟩
  · -- `"lastClaimTime_" = p ++ a'` and `a ++ q = a' ++ w`
    cases a' with
    | nil =>
      simp only [List.nil_append] at h2
      have hq : q = [] := by
        have := congrArg List.length h2
        simp only [List.length_append, hla, hlw] at this
        exact List.eq_nil_of_length_eq_zero (by omega)
      rw [hq, List.append_nil] at h2
      exact h2.symm
    | cons x r =>
      exfalso
      obtain ⟨ds, rfl, -, -⟩ := ha
      simp only [List.cons_append, List.cons.injEq] at h2
      have hx : x ∈ "lastClaimTime_".toList := by
        rw [h1]; simp
      rw [← h2.1] at hx
      revert hx; decide
  · -- `p = "lastClaimTime_" ++ c'` and `w = c' ++ (a ++ q)`
    have hc : c' = [] := by
      have := congrArg List.length h2
      simp only [List.length_append, hla, hlw] at this
      exact List.eq_nil_of_length_eq_zero (by omega)
    have hq : q = [] := by
      have := congrArg List.length h2
      simp only [List.length_append, hla, hlw] at this
      exact List.eq_nil_of_length_eq_zero (by omega)
    rw [hc, hq] at h2
    simpa using h2

theorem walletsWellFormed_of_eq {s t : State} (h : WalletsWellFormed s)
    (ha : t.addressDisplay = s.addressDisplay) (hp : t.pendingClaims = s.pendingClaims) :
    WalletsWellFormed t := by
  unfold WalletsWellFormed
  rw [ha, hp]
  exact h

theorem walletsWellFormed_step (ca : Str → Except String Str)
    (hca : ∀ k a, ca k = Except.ok a → IsEthAddress a) (op : Op) (s : State)
    (h : WalletsWellFormed s) : WalletsWellFormed (step ca op s) := by
  cases op with
  | load => exact walletsWellFormed_of_eq h rfl rfl
  | acceptCookies =>
    simp only [step, acceptCookies]
    split
    · exact h
    · exact walletsWellFormed_of_eq h rfl rfl
  | typeKey v => exact walletsWellFormed_of_eq h rfl rfl
  | connectClick =>
    simp only [step, connectClick]
    split
    · exact h
    · refine ⟨?_, ?_⟩
      · rcases connectWallet_addressDisplay ca (some (sanitizePk (some s.privateKeyInput))) s
          with h1 | ⟨k, hk⟩
        · rw [h1]; exact h.1
        · right; exact hca k _ hk
      · rw [connectWallet_pendingClaims]; exact h.2
  | connectResume i r => exact walletsWellFormed_of_eq h (by simp [step]) (by simp [step])
  | timerTick =>
    simp only [step]
    split
    · exact walletsWellFormed_of_eq h (by simp) (by simp)
    · exact h
  | refreshTick =>
    simp only [step]
    split
    · exact walletsWellFormed_of_eq h (by simp) (by simp)
    · exact h
  | refreshDone i r =>
    simp only [step]
    split
    · exact h
    · exact walletsWellFormed_of_eq h (by simp) (by simp)
  | claimClick =>
    simp only [step, claimClick]
    split
    · exact h
    · split
      · exact h
      · rename_i hne
        refine ⟨h.1, ?_⟩
        intro w hw
        rcases List.mem_append.1 hw with hw | hw
        · exact h.2 w hw
        · have hw2 : w = trim s.addressDisplay := by simpa using hw
          rcases h.1 with h0 | h1
          · rw [h0] at hne
            exact absurd rfl hne
          · rw [hw2, ethAddress_trim h1]; exact h1
  | claimResponse i reply =>
    simp only [step]
    refine ⟨?_, ?_⟩
    · rw [claimResponse_addressDisplay]; exact h.1
    · rcases claimResponse_pendingClaims i reply s with h1 | h1 <;> rw [h1]
      · exact h.2
      · intro w hw
        exact h.2 w (List.mem_of_mem_eraseIdx hw)
  | claimRefreshDone i r => exact walletsWellFormed_of_eq h (by simp [step]) (by simp [step])
  | logout => exact ⟨Or.inl rfl, h.2⟩
  | advance ms => exact walletsWellFormed_of_eq h rfl rfl
  | storageQuota full => exact walletsWellFormed_of_eq h rfl rfl

theorem step_localStorage (ca : Str → Except String Str) (op : Op) (s : State) :
    (step ca op s).localStorage = s.localStorage
    ∨ (step ca op s).localStorage = removeItem s.localStorage "balbiPrivateKey".toList
    ∨ (step ca op s).localStorage
        = setItem s.localStorage "cookieConsent".toList "true".toList
    ∨ ∃ w ∈ s.pendingClaims, (step ca op s).localStorage
        = setItem s.localStorage (cooldownKey w) (intToString s.now) := by
  cases op with
  | load => right; left; rfl
  | acceptCookies =>
    simp only [step, acceptCookies]
    split
    · left; rfl
    · right; right; left; rfl
  | typeKey v => left; rfl
  | connectClick => left; simp [step]
  | connectResume i r => left; simp [step]
  | timerTick => left; simp only [step]; split <;> simp
  | refreshTick => left; simp only [step]; split <;> simp
  | refreshDone i r => left; simp only [step]; split <;> simp
  | claimClick => left; simp [step]
  | claimResponse i reply =>
    simp only [step, claimResponse_localStorage]
    cases hget : s.pendingClaims[i]? with
    | none => left; rfl
    | some w =>
      cases reply with
      | ok txHash =>
        cases hfull : s.storageFull with
        | true => left; rfl
        | false =>
          right; right; right
          exact ⟨w, List.getElem?_mem hget, by simp⟩
      | okNull => left; rfl
      | notOk e t => left; rfl
      | failed => left; rfl
  | claimRefreshDone i r => left; simp [step]
  | logout => left; rfl
  | advance ms => left; rfl
  | storageQuota full => left; rfl

theorem x_not_mem_intToString (n : Int) : 'x' ∉ intToString n := by
  have hd : isDecimalDigit 'x' = false := by decide
  have hnat : ∀ m : Nat, 'x' ∉ Nat.toDigits 10 m := by
    intro m hm
    have := all_digits_toDigitsCore _ _ _ (by simp) 'x' hm
    rw [hd] at this
    cases this
  cases n with
  | ofNat m => exact hnat m
  | negSucc m =>
    intro h
    rcases List.mem_cons.1 h with h | h
    · revert h; decide
    · exact hnat _ h

theorem not_infix_of_not_mem {a v : Str} {c : Char} (hc : c ∈ a) (hv : c ∉ v) : ¬ a <:+: v :=
  fun h => hv (h.subset hc)

theorem onlyOwnCooldownKey_step (ca : Str → Except String Str) (op : Op) (s : State)
    (address : Str) (haddr : IsEthAddress address) (hs : WalletsWellFormed s)
    (h : OnlyOwnCooldownKey address s.localStorage) :
    OnlyOwnCooldownKey address (step ca op s).localStorage := by
  have hx := ethAddress_x_mem haddr
  rcases step_localStorage ca op s with h1 | h1 | h1 | ⟨w, hw, h1⟩ <;> rw [h1]
  · exact h
  · intro e he
    exact h e (mem_removeItem _ _ _ he)
  · intro e he
    rcases mem_setItem _ _ _ _ he with he | rfl
    · exact h e he
    · constructor
      · exact not_infix_of_not_mem hx (by decide)
      · intro hk
        exact absurd hk (not_infix_of_not_mem hx (by decide))
  · intro e he
    rcases mem_setItem _ _ _ _ he with he | rfl
    · exact h e he
    · refine ⟨not_infix_of_not_mem hx (x_not_mem_intToString _), fun hk => ⟨?_, s.now, rfl⟩⟩
      rw [eq_of_infix_cooldownKey haddr (hs.2 w hw) hk]

theorem onlyOwnCooldownKey_run (ca : Str → Except String Str)
    (hca : ∀ k a, ca k = Except.ok a → IsEthAddress a) (ops : List Op) (address : Str)
    (haddr : IsEthAddress address) : ∀ s : State, WalletsWellFormed s →
    OnlyOwnCooldownKey address s.localStorage →
    OnlyOwnCooldownKey address (run ca ops s).localStorage := by
  induction ops with
  | nil => intro s _ h; exact h
  | cons op rest ih =>
    intro s hs h
    exact ih _ (walletsWellFormed_step ca hca op s hs)
      (onlyOwnCooldownKey_step ca op s address haddr hs h)

theorem demoComputeAddress_shape :
    ∀ k a, demoComputeAddress k = Except.ok a → IsEthAddress a := by
  intro k a h
  unfold demoComputeAddress at h
  split at h
  · cases h
    exact ⟨"7E5F4552091A69125d5DfCb7b8C2659029395Bdf".toList, rfl, by decide, by decide⟩
  · split at h
    · cases h
      exact ⟨"2B5AD5c4795c026514f8317c7a215E218DcCD6cF".toList, rfl, by decide, by decide⟩
    · cases h

theorem addressOne_shape : IsEthAddress addressOne :=
  ⟨"7E5F4552091A69125d5DfCb7b8C2659029395Bdf".toList, rfl, by decide, by decide⟩

theorem nil_storage_clean (address : Str) :
    ∀ e ∈ ([] : Storage), ¬ address <:+: e.1 ∧ ¬ address <:+: e.2 := by
  intro e he
  cases he

/-- C4 as stated fails: once the wallet of key `1` has claimed successfully, the
storage holds the entry `lastClaimTime_<address>`, whose key contains the
derived address on display. -/
theorem claim_persists_address_in_key :
    (run demoComputeAddress claimSession (initialState [] 1000)).addressDisplay = addressOne
    ∧ (cooldownKey addressOne, "1000".toList)
        ∈ (run demoComputeAddress claimSession (initialState [] 1000)).localStorage
    ∧ addressOne <:+: cooldownKey addressOne := by
  refine ⟨by decide, by decide, ?_⟩
  exact ⟨"lastClaimTime_".toList, [], by simp [cooldownKey]⟩

/-- C4, amended: the derived address is persisted only as the name of its own
cooldown record.  Let `computeAddress` return only addresses of the shape
`0x` followed by 40 hexadecimal digits, take an address of that shape, and
start the page (logged out, as `initializeApp` and `window.onload` leave it)
on a storage with no entry whose key or value contains the address.  After
every sequence of steps no stored value contains the address, and every entry
whose key contains it has exactly the key `lastClaimTime_<address>` and a
decimal timestamp as value. -/
theorem address_only_in_cooldown_keys (computeAddress : Str → Except String Str)
    (hshape : ∀ k a, computeAddress k = Except.ok a → IsEthAddress a)
    (ops : List Op) (storage : Storage) (now : Int)
    (address : Str) (haddr : IsEthAddress address)
    (hclean : ∀ e ∈ storage, ¬ address <:+: e.1 ∧ ¬ address <:+: e.2) :
    ∀ e ∈ (run computeAddress ops (initialState storage now)).localStorage,
      ¬ address <:+: e.2
      ∧ (address <:+: e.1 → e.1 = cooldownKey address ∧ ∃ n : Int, e.2 = intToString n) := by
  apply onlyOwnCooldownKey_run computeAddress hshape ops address haddr (initialState storage now)
  · exact ⟨Or.inl rfl, fun w hw => nomatch hw⟩
  · intro e he
    have he2 : e ∈ storage := mem_removeItem _ _ _ he
    exact ⟨(hclean e he2).2, fun hk => absurd hk (hclean e he2).1⟩

theorem address_only_in_cooldown_keys_witness :
    IsEthAddress addressOne
    ∧ (∀ k a, demoComputeAddress k = Except.ok a → IsEthAddress a)
    ∧ (cooldownKey addressOne, "1000".toList)
        ∈ (run demoComputeAddress claimSession (initialState [] 1000)).localStorage
    ∧ (∀ e ∈ (run demoComputeAddress claimSession (initialState [] 1000)).localStorage,
        ¬ addressOne <:+: e.2
        ∧ (addressOne <:+: e.1 →
            e.1 = cooldownKey addressOne ∧ ∃ n : Int, e.2 = intToString n)) :=
  ⟨addressOne_shape, demoComputeAddress_shape, by decide,
    address_only_in_cooldown_keys demoComputeAddress demoComputeAddress_shape claimSession []
      1000 addressOne addressOne_shape (nil_storage_clean addressOne)⟩

/-- C2: the claim button is not gated by the cooldown in every reachable state.
In `logoutSession` a claim refused after its wallet logged out leaves the
button enabled while no address is displayed.  In `staleReplySession` such an
answer leaves the button enabled while the wallet of key `1` is displayed two
seconds into its four-hour cooldown, and the next click sends a claim request
for that wallet; a timer tick in that same state would disable the button. -/
theorem stale_claim_reply_enables_button :
    ((run demoComputeAddress logoutSession (initialState [] 1000)).claimDisabled = false
      ∧ (run demoComputeAddress logoutSession (initialState [] 1000)).addressDisplay = [])
    ∧ ((run demoComputeAddress staleReplySession (initialState [] 1000)).claimDisabled = false
      ∧ (run demoComputeAddress staleReplySession (initialState [] 1000)).addressDisplay
          = addressOne
      ∧ getItem (run demoComputeAddress staleReplySession (initialState [] 1000)).localStorage
          (cooldownKey addressOne) = some (intToString 1000)
      ∧ (run demoComputeAddress staleReplySession (initialState [] 1000)).now = 3000
      ∧ (3000 : Int) < 1000 + 14400000
      ∧ (run demoComputeAddress (staleReplySession ++ [Op.claimClick])
          (initialState [] 1000)).pendingClaims = [addressOne]
      ∧ (timerTick (run demoComputeAddress staleReplySession
          (initialState [] 1000))).claimDisabled = true) := by
  refine ⟨⟨by decide, by decide⟩, by decide, by decide, by decide, by decide, by decide,
    by decide, by decide⟩

end Faucet

